import Mathlib

/-!
Liftoff baseline assembler, ia32 backend.

A shallow embedding of `src/wasm/baseline/ia32/liftoff-assembler-ia32.h`.

* The assembler is a value of type `LiftoffAssembler`: the instruction buffer,
  `stack_space_` and `cache_state_`.  Every member function of the source is a
  function on that value; the mnemonics (`mov`, `add`, ...) append one
  instruction to the buffer.
* `DCHECK`, `UNREACHABLE` and a failed register allocation are fatal: an
  operation that contains one returns `Except Fatal LiftoffAssembler`.
* Emitted code is given meaning by a small ia32 machine: eight 32-bit
  general-purpose registers, eight xmm registers, a byte-addressed memory
  with 32-bit addresses and the zero flag.  Machine words are natural numbers
  reduced modulo `4294967296 = 2^32`.
-/

namespace Liftoff

/-! ## Machine integers -/

/-- The conversion of a C++ integer to `uint32_t`: reduction modulo `2^32`. -/
def to_uint32 (x : Int) : Nat := (x % 4294967296).toNat

/-- The conversion of an unsigned 32-bit pattern to `int32_t` (two's complement). -/
def to_int32 (n : Nat) : Int :=
  if n % 4294967296 < 2147483648 then ((n % 4294967296 : Nat) : Int)
  else ((n % 4294967296 : Nat) : Int) - 4294967296

/-- Modelled from the spec: the constant `kMaxInt` (declared outside the sources),
the largest `int`: the limit of a displacement that is a signed 32-bit
immediate. -/
def kMaxInt : Nat := 2147483647

/-! ## Registers and operands -/

/-- The general-purpose registers of ia32, in encoding order. -/
inductive Register
  | eax | ecx | edx | ebx | esp | ebp | esi | edi
  deriving DecidableEq, Repr

/-- The xmm registers of ia32. -/
inductive DoubleRegister
  | xmm0 | xmm1 | xmm2 | xmm3 | xmm4 | xmm5 | xmm6 | xmm7
  deriving DecidableEq, Repr

/-- The two register classes. -/
inductive RegClass
  | kGpReg | kFpReg
  deriving DecidableEq, Repr

/-- Modelled from the spec: the class `LiftoffRegister` (declared in a header that
is not among the sources).  A register is a physical register classified as
general-purpose or floating-point. -/
inductive LiftoffRegister
  | of_gp (r : Register)
  | of_fp (r : DoubleRegister)
  deriving DecidableEq, Repr

/-- The ways an operation of the assembler aborts. -/
inductive Fatal
  | dcheck
  | unreachable
  | no_unused_register
  deriving DecidableEq, Repr

/-- Modelled from the spec: the assertions `DCHECK`, `DCHECK_EQ`, `DCHECK_NE` and
`DCHECK_LE` (declared outside the sources).  A violated contract is an
immediate fatal abort. -/
def DCHECK (c : Bool) : Except Fatal Unit :=
  if c then .ok () else .error .dcheck

/-- The class of a register. -/
def LiftoffRegister.reg_class : LiftoffRegister → RegClass
  | .of_gp _ => .kGpReg
  | .of_fp _ => .kFpReg

/-- Whether a register is general-purpose. -/
def LiftoffRegister.is_gp (r : LiftoffRegister) : Bool := r.reg_class == .kGpReg

/-- Modelled from the spec: `LiftoffRegister::gp()`, the general-purpose register
behind a `LiftoffRegister`; asking it of a floating-point register is a contract
violation. -/
def LiftoffRegister.gp : LiftoffRegister → Except Fatal Register
  | .of_gp r => .ok r
  | .of_fp _ => .error .dcheck

/-- Modelled from the spec: `LiftoffRegister::fp()`, the floating-point register
behind a `LiftoffRegister`; asking it of a general-purpose register is a contract
violation. -/
def LiftoffRegister.fp : LiftoffRegister → Except Fatal DoubleRegister
  | .of_fp r => .ok r
  | .of_gp _ => .error .dcheck

/-- Whether an operation aborted. -/
def isFatal {α : Type} (r : Except Fatal α) : Bool :=
  match r with
  | .error _ => true
  | .ok _ => false

/-- The scale of an index register in a memory operand. -/
inductive ScaleFactor
  | times_1 | times_2 | times_4 | times_8
  deriving DecidableEq, Repr

/-- The multiplier a scale stands for. -/
def ScaleFactor.factor : ScaleFactor → Nat
  | .times_1 => 1
  | .times_2 => 2
  | .times_4 => 4
  | .times_8 => 8

/-- A memory operand `[base + index*scale + disp]`; `disp` is an `int32_t`. -/
structure Operand where
  base : Register
  index : Option (Register × ScaleFactor)
  disp : Int
  deriving DecidableEq, Repr

/-- The constructor `Operand(Register base, int32_t disp)`. -/
def Operand.base_disp (base : Register) (disp : Int) : Operand :=
  { base := base, index := none, disp := disp }

/-- The constructor `Operand(Register base, Register index, ScaleFactor scale, int32_t disp)`. -/
def Operand.indexed (base index : Register) (scale : ScaleFactor) (disp : Int) : Operand :=
  { base := base, index := some (index, scale), disp := disp }

/-- A branch target. -/
structure Label where
  id : Nat
  deriving DecidableEq, Repr

/-- The condition codes used by the source. -/
inductive Condition
  | zero
  deriving DecidableEq, Repr

/-- The constants of WebAssembly value types. -/
inductive ValueType
  | kWasmI32 | kWasmI64 | kWasmF32 | kWasmF64
  deriving DecidableEq, Repr

/-- Modelled from the spec: the class `WasmValue`, a typed constant.  Integer
constants carry their value, floating-point constants their bit pattern. -/
inductive WasmValue
  | i32 (v : Int)
  | i64 (v : Int)
  | f32 (bits : Nat)
  | f64 (bits : Nat)
  deriving DecidableEq, Repr

/-- The type tag of a constant. -/
def WasmValue.type : WasmValue → ValueType
  | .i32 _ => .kWasmI32
  | .i64 _ => .kWasmI64
  | .f32 _ => .kWasmF32
  | .f64 _ => .kWasmF64

/-- Modelled from the spec: `WasmValue::to_i32()`, the payload of an i32 constant;
asking it of a constant of another type is a contract violation. -/
def WasmValue.to_i32 : WasmValue → Except Fatal Int
  | .i32 v => .ok v
  | _ => .error .dcheck

/-! ## Instructions -/

/-- The ia32 instructions the source emits, one constructor per overload used.
An immediate is the `int` held by `Immediate`. -/
inductive Instr
  | mov_rr (dst src : Register)
  | mov_ri (dst : Register) (imm : Int)
  | mov_rm (dst : Register) (src : Operand)
  | mov_mr (dst : Operand) (src : Register)
  | mov_mi (dst : Operand) (imm : Int)
  | lea (dst : Register) (src : Operand)
  | add (dst src : Register)
  | sub (dst src : Register)
  | sub_ri (dst : Register) (imm : Int)
  | neg (dst : Register)
  | imul (dst src : Register)
  | and_ (dst src : Register)
  | or_ (dst src : Register)
  | xor_ (dst src : Register)
  | push_m (src : Operand)
  | pop_m (dst : Operand)
  | test (a b : Register)
  | j (cc : Condition) (target : Label)
  | movsd (dst src : DoubleRegister)
  deriving DecidableEq, Repr

/-! ## The ia32 machine -/

/-- The state of the machine that runs emitted code. -/
structure Machine where
  regs : Register → Nat
  xmm : DoubleRegister → Nat
  mem : Nat → Nat
  zf : Bool

/-- Every general-purpose register holds a 32-bit value. -/
def Machine.WF (m : Machine) : Prop := ∀ r, m.regs r < 4294967296

/-- Write a 32-bit value to a general-purpose register. -/
def Machine.setReg (m : Machine) (r : Register) (v : Nat) : Machine :=
  { m with regs := fun x => if x = r then v % 4294967296 else m.regs x }

/-- Set the zero flag from a 32-bit result. -/
def Machine.setZF (m : Machine) (result : Nat) : Machine :=
  { m with zf := decide (result % 4294967296 = 0) }

/-- The little-endian 32-bit word of memory at address `a`. -/
def load32 (mem : Nat → Nat) (a : Nat) : Nat :=
  mem (a % 4294967296) % 256
    + 256 * (mem ((a + 1) % 4294967296) % 256)
    + 65536 * (mem ((a + 2) % 4294967296) % 256)
    + 16777216 * (mem ((a + 3) % 4294967296) % 256)

/-- Memory after the little-endian 32-bit word `v` is written at address `a`. -/
def store32 (mem : Nat → Nat) (a v : Nat) : Nat → Nat := fun x =>
  if x = a % 4294967296 then v % 256
  else if x = (a + 1) % 4294967296 then v / 256 % 256
  else if x = (a + 2) % 4294967296 then v / 65536 % 256
  else if x = (a + 3) % 4294967296 then v / 16777216 % 256
  else mem x

/-- The four bytes at `a` and the four bytes at `b` do not overlap. -/
def disjoint32 (a b : Nat) : Prop :=
  ∀ i j, i < 4 → j < 4 → (a + i) % 4294967296 ≠ (b + j) % 4294967296

/-- The effective address of a memory operand. -/
def Machine.ea (m : Machine) (op : Operand) : Nat :=
  match op.index with
  | none => (m.regs op.base + to_uint32 op.disp) % 4294967296
  | some (idx, scale) =>
    (m.regs op.base + m.regs idx * scale.factor + to_uint32 op.disp) % 4294967296

/-- Whether a condition code holds. -/
def Condition.holds (cc : Condition) (m : Machine) : Bool :=
  match cc with
  | .zero => m.zf

/-- The effect of one instruction on registers, memory and the zero flag.
`push` computes the address of its operand before esp is decremented, `pop`
after esp is incremented.  `imul` leaves the zero flag as it was (the
architecture leaves it undefined); `j` changes no state.  Operands have their
arithmetic meaning for every register; which operand forms the instruction
encoder accepts is not part of this model. -/
def Instr.step (i : Instr) (m : Machine) : Machine :=
  match i with
  | .mov_rr dst src => m.setReg dst (m.regs src)
  | .mov_ri dst imm => m.setReg dst (to_uint32 imm)
  | .mov_rm dst src => m.setReg dst (load32 m.mem (m.ea src))
  | .mov_mr dst src => { m with mem := store32 m.mem (m.ea dst) (m.regs src) }
  | .mov_mi dst imm => { m with mem := store32 m.mem (m.ea dst) (to_uint32 imm) }
  | .lea dst src => m.setReg dst (m.ea src)
  | .add dst src =>
    (m.setReg dst (m.regs dst + m.regs src)).setZF (m.regs dst + m.regs src)
  | .sub dst src =>
    (m.setReg dst (m.regs dst + (4294967296 - m.regs src % 4294967296))).setZF
      (m.regs dst + (4294967296 - m.regs src % 4294967296))
  | .sub_ri dst imm =>
    (m.setReg dst (m.regs dst + (4294967296 - to_uint32 imm % 4294967296))).setZF
      (m.regs dst + (4294967296 - to_uint32 imm % 4294967296))
  | .neg dst =>
    (m.setReg dst (4294967296 - m.regs dst % 4294967296)).setZF
      (4294967296 - m.regs dst % 4294967296)
  | .imul dst src => m.setReg dst (m.regs dst * m.regs src)
  | .and_ dst src =>
    (m.setReg dst (Nat.land (m.regs dst) (m.regs src))).setZF
      (Nat.land (m.regs dst) (m.regs src))
  | .or_ dst src =>
    (m.setReg dst (Nat.lor (m.regs dst) (m.regs src))).setZF
      (Nat.lor (m.regs dst) (m.regs src))
  | .xor_ dst src =>
    (m.setReg dst (Nat.xor (m.regs dst) (m.regs src))).setZF
      (Nat.xor (m.regs dst) (m.regs src))
  | .push_m src =>
    let v := load32 m.mem (m.ea src)
    let m1 := m.setReg .esp (m.regs .esp + 4294967292)
    { m1 with mem := store32 m1.mem (m1.regs .esp) v }
  | .pop_m dst =>
    let v := load32 m.mem (m.regs .esp)
    let m1 := m.setReg .esp (m.regs .esp + 4)
    { m1 with mem := store32 m1.mem (m1.ea dst) v }
  | .test a b => m.setZF (Nat.land (m.regs a) (m.regs b))
  | .j _ _ => m
  | .movsd dst src =>
    { m with xmm := fun x => if x = dst then m.xmm src else m.xmm x }

/-- The label an instruction transfers control to, if it does. -/
def Instr.branch (i : Instr) (m : Machine) : Option Label :=
  match i with
  | .j cc target => if cc.holds m then some target else none
  | _ => none

/-- Run a sequence of instructions: the final state, and the label control was
transferred to if a branch was taken (the instructions after it are skipped). -/
def exec : List Instr → Machine → Machine × Option Label
  | [], m => (m, none)
  | i :: rest, m =>
    match i.branch m with
    | some l => (i.step m, some l)
    | none => exec rest (i.step m)

/-! ## The assembler -/

/-- Modelled from the spec: the general-purpose registers the register cache hands
out (the architecture's list is declared in a header that is not among the
sources).  The frame pointer and the stack pointer, by which the emitters
address the frame, are not among them. -/
def kGpCacheRegList : List Register := [.eax, .ecx, .edx, .ebx, .esi, .edi]

/-- Modelled from the spec: the floating-point registers the register cache hands
out. -/
def kFpCacheRegList : List DoubleRegister :=
  [.xmm1, .xmm2, .xmm3, .xmm4, .xmm5, .xmm6]

/-- The cache registers of a class. -/
def GetCacheRegList (rc : RegClass) : List LiftoffRegister :=
  match rc with
  | .kGpReg => kGpCacheRegList.map LiftoffRegister.of_gp
  | .kFpReg => kFpCacheRegList.map LiftoffRegister.of_fp

/-- Modelled from the spec: the register cache state, the set of registers marked
in use. -/
structure CacheState where
  used_registers : List LiftoffRegister

/-- The cache registers of a class that are neither in use nor pinned. -/
def CacheState.unused_registers (cs : CacheState) (rc : RegClass)
    (pinned : List LiftoffRegister) : List LiftoffRegister :=
  (GetCacheRegList rc).filter
    (fun r => !(cs.used_registers.contains r) && !(pinned.contains r))

/-- Modelled from the spec: `has_unused_register(class)`: whether some register of
the class is neither in use nor pinned. -/
def CacheState.has_unused_register (cs : CacheState) (rc : RegClass)
    (pinned : List LiftoffRegister) : Bool :=
  !(cs.unused_registers rc pinned).isEmpty

/-- The assembler: the instructions emitted so far, the reserved stack space and
the register cache state. -/
structure LiftoffAssembler where
  code : List Instr
  stack_space_ : Nat
  cache_state_ : CacheState

namespace LiftoffAssembler

/-- Append one instruction to the buffer (what every mnemonic does). -/
def emit (a : LiftoffAssembler) (i : Instr) : LiftoffAssembler :=
  { a with code := a.code ++ [i] }

/-- Modelled from the spec: `GetUnusedRegister(class, pinned)`: a register of the
class that is neither in use nor pinned (the first one of the cache list); a
fatal allocation failure if there is none. -/
def GetUnusedRegister (a : LiftoffAssembler) (rc : RegClass)
    (pinned : List LiftoffRegister) : Except Fatal LiftoffRegister :=
  match a.cache_state_.unused_registers rc pinned with
  | [] => .error .no_unused_register
  | r :: _ => .ok r

end LiftoffAssembler

/-- The instructions `after` holds beyond those of `before`. -/
def emitted (before after : LiftoffAssembler) : List Instr :=
  after.code.drop before.code.length

namespace liftoff

/-- The source's `liftoff::GetStackSlot`.  `index` is a `uint32_t`, so
`kFirstStackSlotOffset - index * kStackSlotSize` is computed in `uint32_t` and
converted to the `int32_t` displacement of the operand. -/
def GetStackSlot (index : Nat) : Operand :=
  let kStackSlotSize : Int := 8
  let kFirstStackSlotOffset : Int := -24
  Operand.base_disp .ebp
    (to_int32 ((to_uint32 kFirstStackSlotOffset
      + (4294967296 - (index % 4294967296 * to_uint32 kStackSlotSize) % 4294967296))
      % 4294967296))

/-- The source's `liftoff::GetContextOperand`. -/
def GetContextOperand : Operand := Operand.base_disp .ebp (-16)

end liftoff

namespace LiftoffAssembler

/-- The source's `ReserveStackSpace`. -/
def ReserveStackSpace (a : LiftoffAssembler) (space : Nat) :
    Except Fatal LiftoffAssembler :=
  let a1 := { a with stack_space_ := space }
  .ok (a1.emit (.sub_ri .esp (to_int32 space)))

/-- The source's `LoadConstant`. -/
def LoadConstant (a : LiftoffAssembler) (reg : LiftoffRegister) (value : WasmValue) :
    Except Fatal LiftoffAssembler :=
  match value.type with
  | .kWasmI32 => do
    let v ← value.to_i32
    if v = 0 then do
      let r ← reg.gp
      pure (a.emit (.xor_ r r))
    else do
      let r ← reg.gp
      pure (a.emit (.mov_ri r v))
  | _ => .error .unreachable

/-- The source's `LoadFromContext`. -/
def LoadFromContext (a : LiftoffAssembler) (dst : Register) (offset : Nat) (size : Int) :
    Except Fatal LiftoffAssembler := do
  DCHECK (decide (offset ≤ kMaxInt))
  let a1 := a.emit (.mov_rm dst liftoff.GetContextOperand)
  DCHECK (decide (4 = size))
  pure (a1.emit (.mov_rm dst (Operand.base_disp dst (to_int32 offset))))

/-- The source's `SpillContext`. -/
def SpillContext (a : LiftoffAssembler) (context : Register) : LiftoffAssembler :=
  a.emit (.mov_mr liftoff.GetContextOperand context)

/-- The source's `Load`. -/
def Load (a : LiftoffAssembler) (dst : LiftoffRegister) (src_addr : Register)
    (offset_imm : Nat) (size : Int) (pinned : List LiftoffRegister) :
    Except Fatal LiftoffAssembler := do
  let src_op := Operand.base_disp src_addr (to_int32 offset_imm)
  let (a1, src_op) ←
    if offset_imm > kMaxInt then do
      let src ← (← a.GetUnusedRegister .kGpReg pinned).gp
      pure (a.emit (.mov_ri src (to_int32 offset_imm)),
            Operand.indexed src_addr src .times_1 0)
    else pure (a, src_op)
  DCHECK (decide (4 = size))
  let d ← dst.gp
  pure (a1.emit (.mov_rm d src_op))

/-- The source's `Store`. -/
def Store (a : LiftoffAssembler) (dst_addr : Register) (offset_imm : Nat)
    (src : LiftoffRegister) (size : Int) (pinned : List LiftoffRegister) :
    Except Fatal LiftoffAssembler := do
  let dst_op := Operand.base_disp dst_addr (to_int32 offset_imm)
  let (a1, dst_op) ←
    if offset_imm > kMaxInt then do
      let dst ← (← a.GetUnusedRegister .kGpReg pinned).gp
      pure (a.emit (.mov_ri dst (to_int32 offset_imm)),
            Operand.indexed dst_addr dst .times_1 0)
    else pure (a, dst_op)
  DCHECK (decide (4 = size))
  let s ← src.gp
  pure (a1.emit (.mov_mr dst_op s))

/-- The source's `LoadCallerFrameSlot`; `caller_slot_idx` is a `uint32_t`. -/
def LoadCallerFrameSlot (a : LiftoffAssembler) (dst : LiftoffRegister)
    (caller_slot_idx : Nat) : Except Fatal LiftoffAssembler := do
  let kCallerStackSlotSize : Int := 4
  let d ← dst.gp
  pure (a.emit (.mov_rm d (Operand.base_disp .ebp
    (to_int32 ((to_uint32 kCallerStackSlotSize
      * ((caller_slot_idx % 4294967296 + 1) % 4294967296)) % 4294967296)))))

/-- The source's `Spill(uint32_t, LiftoffRegister)`. -/
def Spill (a : LiftoffAssembler) (index : Nat) (reg : LiftoffRegister) :
    Except Fatal LiftoffAssembler := do
  let r ← reg.gp
  pure (a.emit (.mov_mr (liftoff.GetStackSlot index) r))

/-- The source's `Spill(uint32_t, WasmValue)`. -/
def SpillValue (a : LiftoffAssembler) (index : Nat) (value : WasmValue) :
    Except Fatal LiftoffAssembler := do
  let v ← value.to_i32
  pure (a.emit (.mov_mi (liftoff.GetStackSlot index) v))

/-- The source's `Fill`. -/
def Fill (a : LiftoffAssembler) (reg : LiftoffRegister) (index : Nat) :
    Except Fatal LiftoffAssembler := do
  let r ← reg.gp
  pure (a.emit (.mov_rm r (liftoff.GetStackSlot index)))

/-- The source's `MoveStackValue`. -/
def MoveStackValue (a : LiftoffAssembler) (dst_index src_index : Nat) :
    Except Fatal LiftoffAssembler := do
  DCHECK (decide (dst_index ≠ src_index))
  if a.cache_state_.has_unused_register .kGpReg [] then do
    let reg ← a.GetUnusedRegister .kGpReg []
    let a1 ← a.Fill reg src_index
    a1.Spill dst_index reg
  else
    pure ((a.emit (.push_m (liftoff.GetStackSlot src_index))).emit
      (.pop_m (liftoff.GetStackSlot dst_index)))

/-- The source's `MoveToReturnRegister`. -/
def MoveToReturnRegister (a : LiftoffAssembler) (reg : LiftoffRegister) :
    Except Fatal LiftoffAssembler := do
  let r ← reg.gp
  if r ≠ .eax then pure (a.emit (.mov_rr .eax r)) else pure a

/-- The source's `Move`. -/
def Move (a : LiftoffAssembler) (dst src : LiftoffRegister) :
    Except Fatal LiftoffAssembler := do
  DCHECK (decide (dst ≠ src))
  DCHECK (decide (dst.reg_class = src.reg_class))
  if dst.is_gp then do
    let d ← dst.gp
    let s ← src.gp
    pure (a.emit (.mov_rr d s))
  else do
    let d ← dst.fp
    let s ← src.fp
    pure (a.emit (.movsd d s))

/-- The source's `emit_i32_add`. -/
def emit_i32_add (a : LiftoffAssembler) (dst lhs rhs : Register) : LiftoffAssembler :=
  if lhs ≠ dst then
    a.emit (.lea dst (Operand.indexed lhs rhs .times_1 0))
  else
    a.emit (.add dst rhs)

/-- The source's `emit_i32_sub`. -/
def emit_i32_sub (a : LiftoffAssembler) (dst lhs rhs : Register) : LiftoffAssembler :=
  if dst = rhs then
    (a.emit (.neg dst)).emit (.add dst lhs)
  else
    let a1 := if dst ≠ lhs then a.emit (.mov_rr dst lhs) else a
    a1.emit (.sub dst rhs)

/-- The source's `COMMUTATIVE_I32_BINOP(name, instruction)`: the body shared by
the four commutative operations. -/
def COMMUTATIVE_I32_BINOP (instruction : Register → Register → Instr)
    (a : LiftoffAssembler) (dst lhs rhs : Register) : LiftoffAssembler :=
  if dst = rhs then
    a.emit (instruction dst lhs)
  else
    let a1 := if dst ≠ lhs then a.emit (.mov_rr dst lhs) else a
    a1.emit (instruction dst rhs)

/-- The source's `emit_i32_mul`: `COMMUTATIVE_I32_BINOP(mul, imul)`. -/
def emit_i32_mul : LiftoffAssembler → Register → Register → Register → LiftoffAssembler :=
  COMMUTATIVE_I32_BINOP Instr.imul

/-- The source's `emit_i32_and`: `COMMUTATIVE_I32_BINOP(and, and_)`. -/
def emit_i32_and : LiftoffAssembler → Register → Register → Register → LiftoffAssembler :=
  COMMUTATIVE_I32_BINOP Instr.and_

/-- The source's `emit_i32_or`: `COMMUTATIVE_I32_BINOP(or, or_)`. -/
def emit_i32_or : LiftoffAssembler → Register → Register → Register → LiftoffAssembler :=
  COMMUTATIVE_I32_BINOP Instr.or_

/-- The source's `emit_i32_xor`: `COMMUTATIVE_I32_BINOP(xor, xor_)`. -/
def emit_i32_xor : LiftoffAssembler → Register → Register → Register → LiftoffAssembler :=
  COMMUTATIVE_I32_BINOP Instr.xor_

/-- The source's `JumpIfZero`. -/
def JumpIfZero (a : LiftoffAssembler) (reg : Register) (label : Label) : LiftoffAssembler :=
  (a.emit (.test reg reg)).emit (.j .zero label)

end LiftoffAssembler

/-- The 32-bit word a machine holds in stack slot `index` of the current frame. -/
def slotWord (m : Machine) (index : Nat) : Nat :=
  load32 m.mem (m.ea (liftoff.GetStackSlot index))

/-- The 32-bit word a machine holds in the context slot of the current frame. -/
def contextWord (m : Machine) : Nat :=
  load32 m.mem (m.ea liftoff.GetContextOperand)

/-- The 32-bit word a machine holds at ebp - 8, where the frame keeps the stack
marker. -/
def stackMarkerWord (m : Machine) : Nat :=
  load32 m.mem (m.ea (Operand.base_disp .ebp (-8)))

/-- An assembler that has emitted nothing, with a given register cache state. -/
def LiftoffAssembler.start (used : List LiftoffRegister) : LiftoffAssembler :=
  { code := [], stack_space_ := 0, cache_state_ := { used_registers := used } }

/-- A machine whose general-purpose registers are given by `regs`, with zeroed
xmm registers and memory given by `mem`. -/
def Machine.init (regs : Register → Nat) (mem : Nat → Nat) : Machine :=
  { regs := regs, xmm := fun _ => 0, mem := mem, zf := false }

end Liftoff

namespace Liftoff

/-! ## Running emitted code: basic facts -/

theorem emitted_of_code_eq (a b : LiftoffAssembler) (xs : List Instr)
    (h : b.code = a.code ++ xs) : emitted a b = xs := by
  simp [emitted, h]

theorem emitted_emit (a : LiftoffAssembler) (i : Instr) : emitted a (a.emit i) = [i] :=
  emitted_of_code_eq a _ [i] rfl

theorem emitted_emit_emit (a : LiftoffAssembler) (i k : Instr) :
    emitted a ((a.emit i).emit k) = [i, k] :=
  emitted_of_code_eq a _ [i, k] (by simp [LiftoffAssembler.emit])

/-- C1 (the code at the failing input): with dst, lhs and rhs all eax and eax
holding 1, the sequence emitted by emit_i32_sub is neg eax; add eax, eax and
leaves eax holding 4294967294, not (1 - 1) mod 2^32 = 0. -/
theorem emit_i32_sub_all_aliased_wrong :
    emitted (LiftoffAssembler.start [])
        ((LiftoffAssembler.start []).emit_i32_sub .eax .eax .eax)
      = [Instr.neg .eax, Instr.add .eax .eax]
    ∧ (exec (emitted (LiftoffAssembler.start [])
        ((LiftoffAssembler.start []).emit_i32_sub .eax .eax .eax))
        (Machine.init (fun _ => 1) (fun _ => 0))).1.regs .eax = 4294967294
    ∧ ((Machine.init (fun _ => 1) (fun _ => 0)).regs .eax
        + (4294967296 - (Machine.init (fun _ => 1) (fun _ => 0)).regs .eax))
        % 4294967296 = 0 := by
  refine ⟨by decide, by decide, by decide⟩

/-- Outside the pattern dst = lhs = rhs, emit_i32_sub leaves dst holding
(lhs - rhs) mod 2^32. -/
theorem emit_i32_sub_correct_of_not_all_aliased (a : LiftoffAssembler) (m : Machine)
    (dst lhs rhs : Register) (hm : m.WF) (h : ¬ (dst = rhs ∧ lhs = rhs)) :
    (exec (emitted a (a.emit_i32_sub dst lhs rhs)) m).1.regs dst
      = (m.regs lhs + (4294967296 - m.regs rhs)) % 4294967296 := by
  have hl := hm lhs
  have hr := hm rhs
  unfold LiftoffAssembler.emit_i32_sub
  by_cases h1 : dst = rhs
  · have h2 : ¬ lhs = rhs := fun h3 => h ⟨h1, h3⟩
    subst h1
    have h3 : ¬ dst = lhs := fun h4 => h2 h4.symm
    simp [emitted_emit_emit, exec, Instr.branch, Instr.step, Machine.setReg, Machine.setZF, h2]
    omega
  · by_cases h2 : dst = lhs
    · subst h2
      have h3 : ¬ rhs = dst := fun h4 => h1 h4.symm
      simp [h1, emitted_emit, exec, Instr.branch, Instr.step, Machine.setReg, Machine.setZF]
      omega
    · have h3 : ¬ rhs = dst := fun h4 => h1 h4.symm
      have h4 : ¬ lhs = dst := fun h4 => h2 h4.symm
      simp [h1, h2, h3, emitted_emit_emit, exec, Instr.branch, Instr.step, Machine.setReg,
        Machine.setZF]
      omega

theorem exec_single (i : Instr) (m : Machine) (h : i.branch m = none) :
    exec [i] m = (i.step m, none) := by
  simp [exec, h]

theorem exec_mov_rr_cons (d s : Register) (rest : List Instr) (m : Machine) :
    exec (Instr.mov_rr d s :: rest) m = exec rest (m.setReg d (m.regs s)) := rfl

/-- The body shared by the commutative operations is right for every instruction
that writes `f (dst, src)` to its destination, `f` commutative. -/
theorem COMMUTATIVE_I32_BINOP_exec (instruction : Register → Register → Instr)
    (f : Nat → Nat → Nat) (hf : ∀ x y, f x y = f y x)
    (hbranch : ∀ d s m, (instruction d s).branch m = none)
    (hstep : ∀ d s m, ((instruction d s).step m).regs d = f (m.regs d) (m.regs s) % 4294967296)
    (a : LiftoffAssembler) (m : Machine) (dst lhs rhs : Register) (hm : m.WF) :
    emitted a (LiftoffAssembler.COMMUTATIVE_I32_BINOP instruction a dst lhs rhs)
      = (if dst = rhs then [instruction dst lhs]
         else if dst = lhs then [instruction dst rhs]
         else [Instr.mov_rr dst lhs, instruction dst rhs])
    ∧ (exec (emitted a (LiftoffAssembler.COMMUTATIVE_I32_BINOP instruction a dst lhs rhs))
        m).1.regs dst = f (m.regs lhs) (m.regs rhs) % 4294967296 := by
  have hl := hm lhs
  unfold LiftoffAssembler.COMMUTATIVE_I32_BINOP
  by_cases h1 : dst = rhs
  · subst h1
    simp [emitted_emit, exec, hbranch, hstep, hf (m.regs dst)]
  · by_cases h2 : dst = lhs
    · subst h2
      simp [h1, emitted_emit, exec, hbranch, hstep]
    · have h3 : ¬ rhs = dst := fun h4 => h1 h4.symm
      simp only [h1, h2, if_false, ne_eq, not_false_eq_true, if_true, emitted_emit_emit,
        exec_mov_rr_cons, true_and]
      rw [exec_single _ _ (hbranch _ _ _), hstep]
      simp [Machine.setReg, h3, Nat.mod_eq_of_lt hl]

/-- C2: for each of mul, and, or, xor and every aliasing of dst, lhs, rhs, the
sequence emitted by the ia32 emit_i32_op is op(dst, lhs) when dst = rhs, and
otherwise mov(dst, lhs) (left out when dst = lhs) followed by op(dst, rhs); run
from any state with 32-bit register contents it leaves dst holding
(lhs op rhs) truncated to 32 bits. -/
theorem emit_i32_commutative_correct (a : LiftoffAssembler) (m : Machine)
    (dst lhs rhs : Register) (hm : m.WF) :
    (emitted a (a.emit_i32_mul dst lhs rhs)
        = (if dst = rhs then [Instr.imul dst lhs]
           else if dst = lhs then [Instr.imul dst rhs]
           else [Instr.mov_rr dst lhs, Instr.imul dst rhs])
      ∧ (exec (emitted a (a.emit_i32_mul dst lhs rhs)) m).1.regs dst
        = (m.regs lhs * m.regs rhs) % 4294967296)
    ∧ (emitted a (a.emit_i32_and dst lhs rhs)
        = (if dst = rhs then [Instr.and_ dst lhs]
           else if dst = lhs then [Instr.and_ dst rhs]
           else [Instr.mov_rr dst lhs, Instr.and_ dst rhs])
      ∧ (exec (emitted a (a.emit_i32_and dst lhs rhs)) m).1.regs dst
        = Nat.land (m.regs lhs) (m.regs rhs) % 4294967296)
    ∧ (emitted a (a.emit_i32_or dst lhs rhs)
        = (if dst = rhs then [Instr.or_ dst lhs]
           else if dst = lhs then [Instr.or_ dst rhs]
           else [Instr.mov_rr dst lhs, Instr.or_ dst rhs])
      ∧ (exec (emitted a (a.emit_i32_or dst lhs rhs)) m).1.regs dst
        = Nat.lor (m.regs lhs) (m.regs rhs) % 4294967296)
    ∧ (emitted a (a.emit_i32_xor dst lhs rhs)
        = (if dst = rhs then [Instr.xor_ dst lhs]
           else if dst = lhs then [Instr.xor_ dst rhs]
           else [Instr.mov_rr dst lhs, Instr.xor_ dst rhs])
      ∧ (exec (emitted a (a.emit_i32_xor dst lhs rhs)) m).1.regs dst
        = Nat.xor (m.regs lhs) (m.regs rhs) % 4294967296) := by
  refine ⟨?_, ?_, ?_, ?_⟩
  · exact COMMUTATIVE_I32_BINOP_exec Instr.imul (fun x y => x * y) Nat.mul_comm
      (fun _ _ _ => rfl) (fun d s m => by simp [Instr.step, Machine.setReg]) a m dst lhs rhs hm
  · exact COMMUTATIVE_I32_BINOP_exec Instr.and_ Nat.land Nat.land_comm
      (fun _ _ _ => rfl) (fun d s m => by simp [Instr.step, Machine.setReg, Machine.setZF])
      a m dst lhs rhs hm
  · exact COMMUTATIVE_I32_BINOP_exec Instr.or_ Nat.lor Nat.lor_comm
      (fun _ _ _ => rfl) (fun d s m => by simp [Instr.step, Machine.setReg, Machine.setZF])
      a m dst lhs rhs hm
  · exact COMMUTATIVE_I32_BINOP_exec Instr.xor_ Nat.xor Nat.xor_comm
      (fun _ _ _ => rfl) (fun d s m => by simp [Instr.step, Machine.setReg, Machine.setZF])
      a m dst lhs rhs hm

/-- C2 (witness): the four commutative operations with dst = rhs = eax,
lhs = ecx, from a state in which ecx holds 6 and every other register 3. -/
theorem emit_i32_commutative_correct_witness :
    (Machine.init (fun r => if r = .ecx then 6 else 3) (fun _ => 0)).WF
    ∧ (exec (emitted (LiftoffAssembler.start [])
        ((LiftoffAssembler.start []).emit_i32_mul .eax .ecx .eax))
        (Machine.init (fun r => if r = .ecx then 6 else 3) (fun _ => 0))).1.regs .eax = 18
    ∧ (exec (emitted (LiftoffAssembler.start [])
        ((LiftoffAssembler.start []).emit_i32_xor .eax .ecx .eax))
        (Machine.init (fun r => if r = .ecx then 6 else 3) (fun _ => 0))).1.regs .eax = 5 := by
  have hwf : (Machine.init (fun r => if r = .ecx then 6 else 3) (fun _ => 0)).WF := by
    intro r; cases r <;> decide
  have h := emit_i32_commutative_correct (LiftoffAssembler.start [])
    (Machine.init (fun r => if r = .ecx then 6 else 3) (fun _ => 0)) .eax .ecx .eax hwf
  refine ⟨hwf, ?_, ?_⟩
  · rw [h.1.2]; decide
  · rw [h.2.2.2.2]; decide

/-- C3: for every aliasing of dst, lhs, rhs, the sequence emitted by the ia32
emit_i32_add is lea dst, [lhs + rhs*1 + 0] when dst differs from lhs (dst = rhs
included) and add dst, rhs when dst = lhs; run from any state it leaves dst holding (lhs + rhs) mod 2^32. -/
theorem emit_i32_add_correct (a : LiftoffAssembler) (m : Machine)
    (dst lhs rhs : Register) :
    emitted a (a.emit_i32_add dst lhs rhs)
      = (if lhs ≠ dst then [Instr.lea dst (Operand.indexed lhs rhs .times_1 0)]
         else [Instr.add dst rhs])
    ∧ (exec (emitted a (a.emit_i32_add dst lhs rhs)) m).1.regs dst
      = (m.regs lhs + m.regs rhs) % 4294967296 := by
  unfold LiftoffAssembler.emit_i32_add
  by_cases h : lhs = dst
  · subst h
    simp [emitted_emit, exec, Instr.branch, Instr.step, Machine.setReg, Machine.setZF]
  · simp [h, emitted_emit, exec, Instr.branch, Instr.step, Machine.setReg, Machine.ea,
      Operand.indexed, ScaleFactor.factor, to_uint32]

/-- The sum on operands 0, a negative value and the overflow boundary: on the lea
path with dst = rhs, on the add path with dst = lhs = rhs, and with three
distinct registers. -/
theorem emit_i32_add_boundary_values :
    (exec (emitted (LiftoffAssembler.start [])
        ((LiftoffAssembler.start []).emit_i32_add .eax .ecx .eax))
        (Machine.init (fun r => if r = .ecx then 4294967295 else if r = .edx then 2147483648
          else if r = .ebx then 0 else 1) (fun _ => 0))).1.regs .eax = 0
    ∧ (exec (emitted (LiftoffAssembler.start [])
        ((LiftoffAssembler.start []).emit_i32_add .edx .edx .edx))
        (Machine.init (fun r => if r = .ecx then 4294967295 else if r = .edx then 2147483648
          else if r = .ebx then 0 else 1) (fun _ => 0))).1.regs .edx = 0
    ∧ (exec (emitted (LiftoffAssembler.start [])
        ((LiftoffAssembler.start []).emit_i32_add .esi .ebx .ecx))
        (Machine.init (fun r => if r = .ecx then 4294967295 else if r = .edx then 2147483648
          else if r = .ebx then 0 else 1) (fun _ => 0))).1.regs .esi = 4294967295 := by
  refine ⟨by decide, by decide, by decide⟩

/-! ## Memory -/

theorem load32_lt (mem : Nat → Nat) (a : Nat) : load32 mem a < 4294967296 := by
  unfold load32
  omega

theorem load32_store32_same (mem : Nat → Nat) (a v : Nat) :
    load32 (store32 mem a v) a = v % 4294967296 := by
  have h1 : ¬ (a + 1) % 4294967296 = a % 4294967296 := by omega
  have h2 : ¬ (a + 2) % 4294967296 = a % 4294967296 := by omega
  have h3 : ¬ (a + 3) % 4294967296 = a % 4294967296 := by omega
  have h4 : ¬ (a + 2) % 4294967296 = (a + 1) % 4294967296 := by omega
  have h5 : ¬ (a + 3) % 4294967296 = (a + 1) % 4294967296 := by omega
  have h6 : ¬ (a + 3) % 4294967296 = (a + 2) % 4294967296 := by omega
  simp only [load32, store32, h1, h2, h3, h4, h5, h6, if_true, if_false]
  omega

theorem load32_store32_disjoint (mem : Nat → Nat) (a b v : Nat) (h : disjoint32 a b) :
    load32 (store32 mem a v) b = load32 mem b := by
  have e : ∀ j, j < 4 → store32 mem a v ((b + j) % 4294967296) = mem ((b + j) % 4294967296) := by
    intro j hj
    have h0 := h 0 j (by omega) hj
    have h1 := h 1 j (by omega) hj
    have h2 := h 2 j (by omega) hj
    have h3 := h 3 j (by omega) hj
    simp only [Nat.add_zero] at h0
    simp [store32, Ne.symm h0, Ne.symm h1, Ne.symm h2, Ne.symm h3]
  have e0 := e 0 (by omega)
  simp only [Nat.add_zero] at e0
  simp only [load32, e0, e 1 (by omega), e 2 (by omega), e 3 (by omega)]

theorem to_uint32_to_int32 (n : Nat) : to_uint32 (to_int32 n) = n % 4294967296 := by
  unfold to_uint32 to_int32
  split <;> omega

theorem to_int32_to_uint32 (v : Int) (h1 : -2147483648 ≤ v) (h2 : v < 2147483648) :
    to_int32 (to_uint32 v) = v := by
  unfold to_uint32 to_int32
  split <;> omega

/-- C4: for every general-purpose registers r and r2, slot index i and machine
state in which r holds a 32-bit value, Spill(i, r) and then Fill(r2, i) both
succeed, each emitting one mov, and running the spill code followed by the
fill code leaves r2 holding the value r held at the start; with r2 = r the
register gets its own value back. -/
theorem spill_fill_round_trip (a : LiftoffAssembler) (m : Machine) (r r2 : Register)
    (i : Nat) (hr : m.regs r < 4294967296) :
    ∃ a1 a2, a.Spill i (.of_gp r) = .ok a1
      ∧ a1.Fill (.of_gp r2) i = .ok a2
      ∧ emitted a a1 = [Instr.mov_mr (liftoff.GetStackSlot i) r]
      ∧ emitted a1 a2 = [Instr.mov_rm r2 (liftoff.GetStackSlot i)]
      ∧ (exec (emitted a a1 ++ emitted a1 a2) m).1.regs r2 = m.regs r
      ∧ (exec (emitted a1 a2) (exec (emitted a a1) m).1).1.regs r2 = m.regs r := by
  refine ⟨a.emit (.mov_mr (liftoff.GetStackSlot i) r),
    (a.emit (.mov_mr (liftoff.GetStackSlot i) r)).emit (.mov_rm r2 (liftoff.GetStackSlot i)),
    rfl, rfl, emitted_emit _ _, emitted_emit _ _, ?_, ?_⟩
  · simp only [emitted_emit, List.singleton_append, exec, Instr.branch, Instr.step,
      Machine.setReg, if_true, Machine.ea]
    simp [load32_store32_same, Nat.mod_eq_of_lt hr]
  · simp only [emitted_emit, exec, Instr.branch, Instr.step, Machine.setReg, if_true, Machine.ea]
    simp [load32_store32_same, Nat.mod_eq_of_lt hr]

/-- C4 (witness): slot 3, spilling ecx (holding 305419896) and filling edx, on a
machine whose frame pointer is 4096. -/
theorem spill_fill_round_trip_witness :
    ∃ a1 a2, (LiftoffAssembler.start []).Spill 3 (.of_gp .ecx) = .ok a1
      ∧ a1.Fill (.of_gp .edx) 3 = .ok a2
      ∧ emitted (LiftoffAssembler.start []) a1 = [Instr.mov_mr (liftoff.GetStackSlot 3) .ecx]
      ∧ emitted a1 a2 = [Instr.mov_rm .edx (liftoff.GetStackSlot 3)]
      ∧ (exec (emitted (LiftoffAssembler.start []) a1 ++ emitted a1 a2)
          (Machine.init (fun r => if r = .ecx then 305419896 else 4096) (fun _ => 0))).1.regs .edx
          = 305419896
      ∧ (exec (emitted a1 a2) (exec (emitted (LiftoffAssembler.start []) a1)
          (Machine.init (fun r => if r = .ecx then 305419896 else 4096) (fun _ => 0))).1).1.regs
            .edx = 305419896 :=
  spill_fill_round_trip (LiftoffAssembler.start [])
    (Machine.init (fun r => if r = .ecx then 305419896 else 4096) (fun _ => 0)) .ecx .edx 3
    (by decide)

/-! ## The register cache -/

theorem unused_registers_gp (cs : CacheState) (pinned : List LiftoffRegister)
    (x : LiftoffRegister) (hx : x ∈ cs.unused_registers .kGpReg pinned) :
    ∃ r, x = .of_gp r ∧ r ≠ .esp ∧ r ≠ .ebp := by
  simp only [CacheState.unused_registers, GetCacheRegList, kGpCacheRegList, List.mem_filter,
    List.map_cons, List.map_nil, List.mem_cons, List.mem_singleton] at hx
  rcases hx.1 with h | h | h | h | h | h | h
  · exact ⟨_, h, by decide, by decide⟩
  · exact ⟨_, h, by decide, by decide⟩
  · exact ⟨_, h, by decide, by decide⟩
  · exact ⟨_, h, by decide, by decide⟩
  · exact ⟨_, h, by decide, by decide⟩
  · exact ⟨_, h, by decide, by decide⟩
  · exact absurd h (List.not_mem_nil _)

theorem GetUnusedRegister_gp_ok (a : LiftoffAssembler) (pinned : List LiftoffRegister)
    (x : LiftoffRegister) (h : a.GetUnusedRegister .kGpReg pinned = .ok x) :
    ∃ r, x = .of_gp r ∧ r ≠ .esp ∧ r ≠ .ebp := by
  unfold LiftoffAssembler.GetUnusedRegister at h
  cases hl : a.cache_state_.unused_registers .kGpReg pinned with
  | nil => simp [hl] at h
  | cons y ys =>
    simp only [hl, Except.ok.injEq] at h
    subst h
    exact unused_registers_gp a.cache_state_ pinned y (by simp [hl])

theorem GetUnusedRegister_of_has_unused (a : LiftoffAssembler) (pinned : List LiftoffRegister)
    (h : a.cache_state_.has_unused_register .kGpReg pinned = true) :
    ∃ r, a.GetUnusedRegister .kGpReg pinned = .ok (.of_gp r) ∧ r ≠ .esp ∧ r ≠ .ebp := by
  unfold CacheState.has_unused_register at h
  cases hl : a.cache_state_.unused_registers .kGpReg pinned with
  | nil => simp [hl] at h
  | cons y ys =>
    have hy : a.GetUnusedRegister .kGpReg pinned = .ok y := by
      simp [LiftoffAssembler.GetUnusedRegister, hl]
    obtain ⟨r, hr, h1, h2⟩ := GetUnusedRegister_gp_ok a pinned y hy
    exact ⟨r, hr ▸ hy, h1, h2⟩

/-! ## Frame layout -/

theorem ea_GetStackSlot (m : Machine) (i : Nat) :
    m.ea (liftoff.GetStackSlot i)
      = (m.regs .ebp + (4294967272 + (4294967296 - (i % 4294967296 * 8) % 4294967296))
          % 4294967296) % 4294967296 := by
  have h1 : to_uint32 (-24) = 4294967272 := by decide
  have h2 : to_uint32 8 = 8 := by decide
  simp only [Machine.ea, liftoff.GetStackSlot, Operand.base_disp, to_uint32_to_int32, h1, h2]
  omega

theorem ea_GetContextOperand (m : Machine) :
    m.ea liftoff.GetContextOperand = (m.regs .ebp + 4294967280) % 4294967296 := by
  have h1 : to_uint32 (-16) = 4294967280 := by decide
  simp only [Machine.ea, liftoff.GetContextOperand, Operand.base_disp, h1]

theorem slots_disjoint (m m1 : Machine) (i k : Nat) (hi : i < 536870911) (hk : k < 536870911)
    (hne : k ≠ i) (hb : m1.regs .ebp = m.regs .ebp) :
    disjoint32 (m.ea (liftoff.GetStackSlot i)) (m1.ea (liftoff.GetStackSlot k)) := by
  intro x y hx hy
  rw [ea_GetStackSlot, ea_GetStackSlot, hb]
  omega

theorem slot_context_disjoint (m m1 : Machine) (i : Nat) (hi : i < 536870911)
    (hb : m1.regs .ebp = m.regs .ebp) :
    disjoint32 (m.ea (liftoff.GetStackSlot i)) (m1.ea liftoff.GetContextOperand) := by
  intro x y hx hy
  rw [ea_GetStackSlot, ea_GetContextOperand, hb]
  omega

/-! ## MoveStackValue -/

theorem ea_base_ebp_congr (m m1 : Machine) (d : Int) (hb : m1.regs .ebp = m.regs .ebp) :
    m1.ea (Operand.base_disp .ebp d) = m.ea (Operand.base_disp .ebp d) := by
  simp [Machine.ea, Operand.base_disp, hb]

/-- The state after the register-mediated move: fill `reg` from the source
operand, spill it to the destination operand. -/
theorem exec_fill_spill (m : Machine) (reg : Register) (hb : reg ≠ .ebp) (ds dd : Int) :
    (exec [Instr.mov_rm reg (Operand.base_disp .ebp ds),
           Instr.mov_mr (Operand.base_disp .ebp dd) reg] m).1
      = { m with
          regs := fun x => if x = reg then load32 m.mem (m.ea (Operand.base_disp .ebp ds))
            else m.regs x
          mem := store32 m.mem (m.ea (Operand.base_disp .ebp dd))
            (load32 m.mem (m.ea (Operand.base_disp .ebp ds))) } := by
  have hb2 : ¬ Register.ebp = reg := fun h => hb h.symm
  simp [exec, Instr.branch, Instr.step, Machine.setReg, Machine.ea, Operand.base_disp, hb2,
    Nat.mod_eq_of_lt (load32_lt _ _)]

/-- The state after the push/pop move. -/
theorem exec_push_pop (m : Machine) (ds dd : Int) :
    (exec [Instr.push_m (Operand.base_disp .ebp ds),
           Instr.pop_m (Operand.base_disp .ebp dd)] m).1
      = { m with
          regs := fun x => if x = .esp then (m.regs .esp + 4294967292 + 4) % 4294967296
            else m.regs x
          mem := store32
            (store32 m.mem (m.regs .esp + 4294967292)
              (load32 m.mem (m.ea (Operand.base_disp .ebp ds))))
            (m.ea (Operand.base_disp .ebp dd))
            (load32 m.mem (m.ea (Operand.base_disp .ebp ds))) } := by
  have e1 : ∀ (mem : Nat → Nat) (a v : Nat), store32 mem (a % 4294967296) v = store32 mem a v := by
    intro mem a v; funext x; simp [store32]
  have e2 : ∀ (mem : Nat → Nat) (a : Nat), load32 mem (a % 4294967296) = load32 mem a := by
    intro mem a; simp [load32]
  simp only [exec, Instr.branch, Instr.step, Machine.setReg, Machine.ea, Operand.base_disp,
    if_true, e1, e2, load32_store32_same, Nat.mod_eq_of_lt (load32_lt _ _)]
  have h1 : ¬ Register.ebp = Register.esp := by decide
  have h2 : ∀ x : Register,
      (if x = Register.esp then ((m.regs .esp + 4294967292) % 4294967296 + 4) % 4294967296
        else if x = Register.esp then (m.regs .esp + 4294967292) % 4294967296 else m.regs x)
      = (if x = Register.esp then (m.regs .esp + 4294967292 + 4) % 4294967296 else m.regs x) := by
    intro x
    by_cases hx : x = Register.esp
    · simp only [hx, if_true]; omega
    · simp only [hx, if_false]
  simp only [h1, if_false, h2]

theorem MoveStackValue_free (a : LiftoffAssembler) (dst_index src_index : Nat)
    (hne : dst_index ≠ src_index) (reg : Register)
    (hu : a.cache_state_.has_unused_register .kGpReg [] = true)
    (hr : a.GetUnusedRegister .kGpReg [] = .ok (.of_gp reg)) :
    a.MoveStackValue dst_index src_index
      = .ok ((a.emit (.mov_rm reg (liftoff.GetStackSlot src_index))).emit
          (.mov_mr (liftoff.GetStackSlot dst_index) reg)) := by
  simp [LiftoffAssembler.MoveStackValue, DCHECK, hne, hu, hr, LiftoffAssembler.Fill,
    LiftoffAssembler.Spill, LiftoffRegister.gp, bind, Except.bind, pure, Except.pure]

theorem MoveStackValue_starved (a : LiftoffAssembler) (dst_index src_index : Nat)
    (hne : dst_index ≠ src_index)
    (hu : a.cache_state_.has_unused_register .kGpReg [] = false) :
    a.MoveStackValue dst_index src_index
      = .ok ((a.emit (.push_m (liftoff.GetStackSlot src_index))).emit
          (.pop_m (liftoff.GetStackSlot dst_index))) := by
  simp [LiftoffAssembler.MoveStackValue, DCHECK, hne, hu, bind, Except.bind, pure, Except.pure]

theorem ea_GetStackSlot_congr (m m1 : Machine) (k : Nat) (hb : m1.regs .ebp = m.regs .ebp) :
    m1.ea (liftoff.GetStackSlot k) = m.ea (liftoff.GetStackSlot k) :=
  ea_base_ebp_congr m m1 _ hb

theorem ea_GetContextOperand_congr (m m1 : Machine) (hb : m1.regs .ebp = m.regs .ebp) :
    m1.ea liftoff.GetContextOperand = m.ea liftoff.GetContextOperand :=
  ea_base_ebp_congr m m1 _ hb

/-- The frame after a machine has written the word of slot `s` to slot `d`, on
top of a memory `mem0`, leaving ebp as it was. -/
theorem frame_after_store (m m1 : Machine) (mem0 : Nat → Nat) (d s : Nat)
    (hd : d < 536870911) (hb : m1.regs .ebp = m.regs .ebp)
    (hmem : m1.mem = store32 mem0 (m.ea (liftoff.GetStackSlot d)) (slotWord m s)) :
    slotWord m1 d = slotWord m s
    ∧ (∀ k, k < 536870911 → k ≠ d →
        load32 mem0 (m.ea (liftoff.GetStackSlot k)) = slotWord m k →
        slotWord m1 k = slotWord m k)
    ∧ (load32 mem0 (m.ea liftoff.GetContextOperand) = contextWord m →
        contextWord m1 = contextWord m) := by
  refine ⟨?_, ?_, ?_⟩
  · rw [slotWord, hmem, ea_GetStackSlot_congr m m1 d hb, load32_store32_same]
    exact Nat.mod_eq_of_lt (load32_lt _ _)
  · intro k hk hne h0
    rw [slotWord, hmem, ea_GetStackSlot_congr m m1 k hb,
      load32_store32_disjoint _ _ _ _ (slots_disjoint m m d k hd hk hne rfl), h0]
  · intro h0
    rw [contextWord, hmem, ea_GetContextOperand_congr m m1 hb,
      load32_store32_disjoint _ _ _ _ (slot_context_disjoint m m d hd rfl), h0]

/-- C5 (amended): for distinct slot indices, the destination below 2^29 - 1, and a
machine with 32-bit registers, MoveStackValue succeeds on both paths (Fill then Spill
through the free register, or push of the source slot and pop into the
destination slot), and after the emitted code the destination slot holds what
the source slot held and esp and ebp have their original values; every other
slot below 2^29 - 1 (the source slot among them) and the context slot are
unchanged, on the push/pop path provided the slot does not overlap the four
bytes below esp, which that path overwrites. -/
theorem MoveStackValue_frame (a : LiftoffAssembler) (m : Machine) (dst_index src_index : Nat)
    (hne : dst_index ≠ src_index) (hd : dst_index < 536870911) (hm : m.WF) :
    ∃ a1, a.MoveStackValue dst_index src_index = .ok a1
      ∧ ((∃ reg, a.cache_state_.has_unused_register .kGpReg [] = true
            ∧ a.GetUnusedRegister .kGpReg [] = .ok (.of_gp reg)
            ∧ emitted a a1 = [Instr.mov_rm reg (liftoff.GetStackSlot src_index),
                Instr.mov_mr (liftoff.GetStackSlot dst_index) reg])
          ∨ (a.cache_state_.has_unused_register .kGpReg [] = false
            ∧ emitted a a1 = [Instr.push_m (liftoff.GetStackSlot src_index),
                Instr.pop_m (liftoff.GetStackSlot dst_index)]))
      ∧ slotWord (exec (emitted a a1) m).1 dst_index = slotWord m src_index
      ∧ (exec (emitted a a1) m).1.regs .esp = m.regs .esp
      ∧ (exec (emitted a a1) m).1.regs .ebp = m.regs .ebp
      ∧ (∀ k, k < 536870911 → k ≠ dst_index →
          (a.cache_state_.has_unused_register .kGpReg [] = true
            ∨ disjoint32 (m.regs .esp + 4294967292) (m.ea (liftoff.GetStackSlot k))) →
          slotWord (exec (emitted a a1) m).1 k = slotWord m k)
      ∧ ((a.cache_state_.has_unused_register .kGpReg [] = true
            ∨ disjoint32 (m.regs .esp + 4294967292) (m.ea liftoff.GetContextOperand)) →
          contextWord (exec (emitted a a1) m).1 = contextWord m) := by
  have hesp := hm .esp
  cases hu : a.cache_state_.has_unused_register .kGpReg [] with
  | true =>
    obtain ⟨reg, hr, h1, h2⟩ := GetUnusedRegister_of_has_unused a [] hu
    have hb : ¬ Register.ebp = reg := fun h => h2 h.symm
    have hsp : ¬ Register.esp = reg := fun h => h1 h.symm
    refine ⟨_, MoveStackValue_free a dst_index src_index hne reg hu hr,
      Or.inl ⟨reg, rfl, hr, emitted_emit_emit _ _ _⟩, ?_⟩
    rw [emitted_emit_emit]
    have hx := exec_fill_spill m reg h2 (liftoff.GetStackSlot src_index).disp
      (liftoff.GetStackSlot dst_index).disp
    have hebp : (exec [Instr.mov_rm reg (liftoff.GetStackSlot src_index),
        Instr.mov_mr (liftoff.GetStackSlot dst_index) reg] m).1.regs .ebp = m.regs .ebp := by
      rw [show liftoff.GetStackSlot src_index
        = Operand.base_disp .ebp (liftoff.GetStackSlot src_index).disp from rfl,
        show liftoff.GetStackSlot dst_index
        = Operand.base_disp .ebp (liftoff.GetStackSlot dst_index).disp from rfl, hx]
      simp [hb]
    have hesp2 : (exec [Instr.mov_rm reg (liftoff.GetStackSlot src_index),
        Instr.mov_mr (liftoff.GetStackSlot dst_index) reg] m).1.regs .esp = m.regs .esp := by
      rw [show liftoff.GetStackSlot src_index
        = Operand.base_disp .ebp (liftoff.GetStackSlot src_index).disp from rfl,
        show liftoff.GetStackSlot dst_index
        = Operand.base_disp .ebp (liftoff.GetStackSlot dst_index).disp from rfl, hx]
      simp [hsp]
    have hmem : (exec [Instr.mov_rm reg (liftoff.GetStackSlot src_index),
        Instr.mov_mr (liftoff.GetStackSlot dst_index) reg] m).1.mem
        = store32 m.mem (m.ea (liftoff.GetStackSlot dst_index)) (slotWord m src_index) := by
      rw [show liftoff.GetStackSlot src_index
        = Operand.base_disp .ebp (liftoff.GetStackSlot src_index).disp from rfl,
        show liftoff.GetStackSlot dst_index
        = Operand.base_disp .ebp (liftoff.GetStackSlot dst_index).disp from rfl, hx]
      rfl
    obtain ⟨f1, f2, f3⟩ := frame_after_store m _ m.mem dst_index src_index hd hebp hmem
    exact ⟨f1, hesp2, hebp, fun k hk hkd _ => f2 k hk hkd rfl, fun _ => f3 rfl⟩
  | false =>
    refine ⟨_, MoveStackValue_starved a dst_index src_index hne hu,
      Or.inr ⟨rfl, emitted_emit_emit _ _ _⟩, ?_⟩
    rw [emitted_emit_emit]
    have hx := exec_push_pop m (liftoff.GetStackSlot src_index).disp
      (liftoff.GetStackSlot dst_index).disp
    have hebp : (exec [Instr.push_m (liftoff.GetStackSlot src_index),
        Instr.pop_m (liftoff.GetStackSlot dst_index)] m).1.regs .ebp = m.regs .ebp := by
      rw [show liftoff.GetStackSlot src_index
        = Operand.base_disp .ebp (liftoff.GetStackSlot src_index).disp from rfl,
        show liftoff.GetStackSlot dst_index
        = Operand.base_disp .ebp (liftoff.GetStackSlot dst_index).disp from rfl, hx]
      simp
    have hesp2 : (exec [Instr.push_m (liftoff.GetStackSlot src_index),
        Instr.pop_m (liftoff.GetStackSlot dst_index)] m).1.regs .esp = m.regs .esp := by
      rw [show liftoff.GetStackSlot src_index
        = Operand.base_disp .ebp (liftoff.GetStackSlot src_index).disp from rfl,
        show liftoff.GetStackSlot dst_index
        = Operand.base_disp .ebp (liftoff.GetStackSlot dst_index).disp from rfl, hx]
      simp only [if_true]
      omega
    have hmem : (exec [Instr.push_m (liftoff.GetStackSlot src_index),
        Instr.pop_m (liftoff.GetStackSlot dst_index)] m).1.mem
        = store32 (store32 m.mem (m.regs .esp + 4294967292) (slotWord m src_index))
            (m.ea (liftoff.GetStackSlot dst_index)) (slotWord m src_index) := by
      rw [show liftoff.GetStackSlot src_index
        = Operand.base_disp .ebp (liftoff.GetStackSlot src_index).disp from rfl,
        show liftoff.GetStackSlot dst_index
        = Operand.base_disp .ebp (liftoff.GetStackSlot dst_index).disp from rfl, hx]
      rfl
    obtain ⟨f1, f2, f3⟩ := frame_after_store m _ _ dst_index src_index hd hebp hmem
    refine ⟨f1, hesp2, hebp, fun k hk hkd hdis => f2 k hk hkd ?_, fun hdis => f3 ?_⟩
    · rcases hdis with h | h
      · exact absurd h (by simp)
      · exact load32_store32_disjoint _ _ _ _ h
    · rcases hdis with h | h
      · exact absurd h (by simp)
      · exact load32_store32_disjoint _ _ _ _ h

/-- C5 (witness): slot 0 moved to slot 1 with every cache register in use (the
push/pop path), on a machine with ebp = 4096, esp = 4000 and the word 7 in
slot 0. -/
theorem MoveStackValue_frame_witness :
    ∃ a1, (LiftoffAssembler.start [.of_gp .eax, .of_gp .ecx, .of_gp .edx, .of_gp .ebx,
          .of_gp .esi, .of_gp .edi]).MoveStackValue 1 0 = .ok a1
      ∧ slotWord (exec (emitted (LiftoffAssembler.start [.of_gp .eax, .of_gp .ecx, .of_gp .edx,
          .of_gp .ebx, .of_gp .esi, .of_gp .edi]) a1)
          (Machine.init (fun r => if r = .ebp then 4096 else 4000)
            (fun x => if x = 4072 then 7 else 0))).1 1 = 7
      ∧ (exec (emitted (LiftoffAssembler.start [.of_gp .eax, .of_gp .ecx, .of_gp .edx,
          .of_gp .ebx, .of_gp .esi, .of_gp .edi]) a1)
          (Machine.init (fun r => if r = .ebp then 4096 else 4000)
            (fun x => if x = 4072 then 7 else 0))).1.regs .esp = 4000 := by
  obtain ⟨a1, h1, _, h3, h4, _⟩ := MoveStackValue_frame
    (LiftoffAssembler.start [.of_gp .eax, .of_gp .ecx, .of_gp .edx, .of_gp .ebx,
      .of_gp .esi, .of_gp .edi])
    (Machine.init (fun r => if r = .ebp then 4096 else 4000)
      (fun x => if x = 4072 then 7 else 0)) 1 0 (by decide) (by decide)
    (by intro r; cases r <;> decide)
  refine ⟨a1, h1, ?_, ?_⟩
  · rw [h3]; decide
  · rw [h4]; decide

/-- C5 (counterexample): the claim fails for some distinct slot indices and
machine states.  With a free register, MoveStackValue(536870911, 0) emits
mov eax, [ebp-24]; mov [ebp-16], eax, because -24 - 8 * 536870911 wraps to -16:
the context slot, which held 9, ends holding 7.  With every cache register in
use and esp = ebp - 36, MoveStackValue(1, 0) emits push [ebp-24]; pop [ebp-32],
and the push overwrites slot 2 at ebp - 40, which held 0, with 7. -/
theorem MoveStackValue_frame_counterexample :
    (∃ a1, (LiftoffAssembler.start []).MoveStackValue 536870911 0 = .ok a1
      ∧ emitted (LiftoffAssembler.start []) a1
        = [Instr.mov_rm .eax (Operand.base_disp .ebp (-24)),
           Instr.mov_mr (Operand.base_disp .ebp (-16)) .eax]
      ∧ contextWord (Machine.init (fun r => if r = .ebp then 4096 else 4000)
          (fun x => if x = 4072 then 7 else if x = 4080 then 9 else 0)) = 9
      ∧ contextWord (exec (emitted (LiftoffAssembler.start []) a1)
          (Machine.init (fun r => if r = .ebp then 4096 else 4000)
            (fun x => if x = 4072 then 7 else if x = 4080 then 9 else 0))).1 = 7)
    ∧ (∃ a1, (LiftoffAssembler.start [.of_gp .eax, .of_gp .ecx, .of_gp .edx, .of_gp .ebx,
          .of_gp .esi, .of_gp .edi]).MoveStackValue 1 0 = .ok a1
      ∧ emitted (LiftoffAssembler.start [.of_gp .eax, .of_gp .ecx, .of_gp .edx, .of_gp .ebx,
          .of_gp .esi, .of_gp .edi]) a1
        = [Instr.push_m (Operand.base_disp .ebp (-24)),
           Instr.pop_m (Operand.base_disp .ebp (-32))]
      ∧ slotWord (Machine.init (fun r => if r = .ebp then 4096 else 4060)
          (fun x => if x = 4072 then 7 else 0)) 2 = 0
      ∧ slotWord (exec (emitted (LiftoffAssembler.start [.of_gp .eax, .of_gp .ecx, .of_gp .edx,
          .of_gp .ebx, .of_gp .esi, .of_gp .edi]) a1)
          (Machine.init (fun r => if r = .ebp then 4096 else 4060)
            (fun x => if x = 4072 then 7 else 0))).1 2 = 7) := by
  refine ⟨⟨_, rfl, by decide, by decide, by decide⟩, ⟨_, rfl, by decide, by decide, by decide⟩⟩

/-! ## Load and Store -/

theorem Load_small (a : LiftoffAssembler) (dst base : Register) (offset_imm : Nat)
    (pinned : List LiftoffRegister) (h : ¬ offset_imm > kMaxInt) :
    a.Load (.of_gp dst) base offset_imm 4 pinned
      = .ok (a.emit (.mov_rm dst (Operand.base_disp base (to_int32 offset_imm)))) := by
  simp [LiftoffAssembler.Load, h, DCHECK, LiftoffRegister.gp, bind, Except.bind, pure,
    Except.pure]

theorem Load_large (a : LiftoffAssembler) (dst base scratch : Register) (offset_imm : Nat)
    (pinned : List LiftoffRegister) (h : offset_imm > kMaxInt)
    (hs : a.GetUnusedRegister .kGpReg pinned = .ok (.of_gp scratch)) :
    a.Load (.of_gp dst) base offset_imm 4 pinned
      = .ok ((a.emit (.mov_ri scratch (to_int32 offset_imm))).emit
          (.mov_rm dst (Operand.indexed base scratch .times_1 0))) := by
  simp [LiftoffAssembler.Load, h, hs, DCHECK, LiftoffRegister.gp, bind, Except.bind, pure,
    Except.pure]

theorem Store_small (a : LiftoffAssembler) (src base : Register) (offset_imm : Nat)
    (pinned : List LiftoffRegister) (h : ¬ offset_imm > kMaxInt) :
    a.Store base offset_imm (.of_gp src) 4 pinned
      = .ok (a.emit (.mov_mr (Operand.base_disp base (to_int32 offset_imm)) src)) := by
  simp [LiftoffAssembler.Store, h, DCHECK, LiftoffRegister.gp, bind, Except.bind, pure,
    Except.pure]

theorem Store_large (a : LiftoffAssembler) (src base scratch : Register) (offset_imm : Nat)
    (pinned : List LiftoffRegister) (h : offset_imm > kMaxInt)
    (hs : a.GetUnusedRegister .kGpReg pinned = .ok (.of_gp scratch)) :
    a.Store base offset_imm (.of_gp src) 4 pinned
      = .ok ((a.emit (.mov_ri scratch (to_int32 offset_imm))).emit
          (.mov_mr (Operand.indexed base scratch .times_1 0) src)) := by
  simp [LiftoffAssembler.Store, h, hs, DCHECK, LiftoffRegister.gp, bind, Except.bind, pure,
    Except.pure]

/-- C6: for every 32-bit offset_imm, Load (size 4) reads, and Store (size 4) writes,
the word at address (base + offset_imm) mod 2^32.  When offset_imm > kMaxInt the
code emitted is mov scratch, offset_imm followed by a mov through the indexed
operand [base + scratch*1 + 0], scratch being the register GetUnusedRegister(kGpReg,
pinned) returns; otherwise it is the single mov through [base + offset_imm].  On
the scratch path this needs scratch to differ from base and, for Store, from the
register stored. -/
theorem Load_Store_address (a : LiftoffAssembler) (m : Machine)
    (dst src base scratch : Register) (offset_imm : Nat) (pinned : List LiftoffRegister)
    (hoff : offset_imm < 4294967296)
    (hs : offset_imm > kMaxInt →
      a.GetUnusedRegister .kGpReg pinned = .ok (.of_gp scratch) ∧ scratch ≠ base) :
    (∃ a1, a.Load (.of_gp dst) base offset_imm 4 pinned = .ok a1
      ∧ emitted a a1
        = (if offset_imm > kMaxInt then
            [Instr.mov_ri scratch (to_int32 offset_imm),
             Instr.mov_rm dst (Operand.indexed base scratch .times_1 0)]
           else [Instr.mov_rm dst (Operand.base_disp base (to_int32 offset_imm))])
      ∧ (exec (emitted a a1) m).1.regs dst
        = load32 m.mem ((m.regs base + offset_imm) % 4294967296)
      ∧ (exec (emitted a a1) m).1.mem = m.mem)
    ∧ ((offset_imm > kMaxInt → scratch ≠ src) →
      ∃ a1, a.Store base offset_imm (.of_gp src) 4 pinned = .ok a1
        ∧ emitted a a1
          = (if offset_imm > kMaxInt then
              [Instr.mov_ri scratch (to_int32 offset_imm),
               Instr.mov_mr (Operand.indexed base scratch .times_1 0) src]
             else [Instr.mov_mr (Operand.base_disp base (to_int32 offset_imm)) src])
        ∧ (exec (emitted a a1) m).1.mem
          = store32 m.mem ((m.regs base + offset_imm) % 4294967296) (m.regs src)) := by
  have e1 : ∀ (mem : Nat → Nat) (x v : Nat), store32 mem (x % 4294967296) v = store32 mem x v := by
    intro mem x v; funext y; simp [store32]
  have e2 : ∀ (mem : Nat → Nat) (x : Nat), load32 mem (x % 4294967296) = load32 mem x := by
    intro mem x; simp [load32]
  have e3 : to_uint32 (to_int32 offset_imm) = offset_imm := by
    rw [to_uint32_to_int32]; exact Nat.mod_eq_of_lt hoff
  have e4 : to_uint32 0 = 0 := by decide
  by_cases h : offset_imm > kMaxInt
  · obtain ⟨hg, hb⟩ := hs h
    have hb2 : ¬ base = scratch := fun h => hb h.symm
    refine ⟨⟨_, Load_large a dst base scratch offset_imm pinned h hg, ?_, ?_, ?_⟩, ?_⟩
    · simp [h, emitted_emit_emit]
    · simp [emitted_emit_emit, exec, Instr.branch, Instr.step, Machine.setReg, Machine.ea,
        Operand.indexed, ScaleFactor.factor, e1, e2, e3, e4, hb2, Nat.mod_eq_of_lt hoff,
        Nat.mod_eq_of_lt (load32_lt _ _)]
    · simp [emitted_emit_emit, exec, Instr.branch, Instr.step, Machine.setReg]
    · intro hsrc
      have hsrc2 : ¬ src = scratch := fun h1 => hsrc h h1.symm
      refine ⟨_, Store_large a src base scratch offset_imm pinned h hg, ?_, ?_⟩
      · simp [h, emitted_emit_emit]
      · simp [emitted_emit_emit, exec, Instr.branch, Instr.step, Machine.setReg, Machine.ea,
          Operand.indexed, ScaleFactor.factor, e1, e3, e4, hb2, hsrc2, Nat.mod_eq_of_lt hoff]
  · refine ⟨⟨_, Load_small a dst base offset_imm pinned h, ?_, ?_, ?_⟩, ?_⟩
    · simp [h, emitted_emit]
    · simp [emitted_emit, exec, Instr.branch, Instr.step, Machine.setReg, Machine.ea,
        Operand.base_disp, e2, e3, Nat.mod_eq_of_lt (load32_lt _ _)]
    · simp [emitted_emit, exec, Instr.branch, Instr.step, Machine.setReg]
    · intro _
      refine ⟨_, Store_small a src base offset_imm pinned h, ?_, ?_⟩
      · simp [h, emitted_emit]
      · simp [emitted_emit, exec, Instr.branch, Instr.step, Machine.ea, Operand.base_disp, e1, e3]

/-- C6 (witness): offset 4294967288 (above kMaxInt) from base ebx = 4096 with no
register in use, so that the scratch register is eax: the word loaded into ecx
is the one at address 4088. -/
theorem Load_Store_address_witness :
    ∃ a1, (LiftoffAssembler.start []).Load (.of_gp .ecx) .ebx 4294967288 4 [] = .ok a1
      ∧ emitted (LiftoffAssembler.start []) a1
        = [Instr.mov_ri .eax (-8), Instr.mov_rm .ecx (Operand.indexed .ebx .eax .times_1 0)]
      ∧ (exec (emitted (LiftoffAssembler.start []) a1)
          (Machine.init (fun _ => 4096)
            (fun x => if x = 4088 then 120 else if x = 4089 then 86 else if x = 4090 then 52
              else if x = 4091 then 18 else 0))).1.regs .ecx = 305419896 := by
  obtain ⟨⟨a1, h1, h2, h3, _⟩, _⟩ := Load_Store_address (LiftoffAssembler.start [])
    (Machine.init (fun _ => 4096)
      (fun x => if x = 4088 then 120 else if x = 4089 then 86 else if x = 4090 then 52
        else if x = 4091 then 18 else 0))
    .ecx .edx .ebx .eax 4294967288 [] (by decide) (fun _ => ⟨rfl, by decide⟩)
  refine ⟨a1, h1, ?_, ?_⟩
  · rw [h2]; decide
  · rw [h3]; decide

/-! ## Frame layout: displacements -/

theorem GetStackSlot_disp (i : Nat) (hi : i ≤ 268435453) :
    (liftoff.GetStackSlot i).disp = -24 - 8 * (i : Int) := by
  have h1 : to_uint32 (-24) = 4294967272 := by decide
  have h2 : to_uint32 8 = 8 := by decide
  simp only [liftoff.GetStackSlot, Operand.base_disp, h1, h2, to_int32]
  split <;> omega

/-- C7 (amended): for slot indices i < j <= 2^28 - 3 = 268435453, the range in
which -24 - 8 * index fits a signed 32-bit integer, the ebp-relative
displacement of GetStackSlot(j) is strictly less than that of GetStackSlot(i),
and the displacement of either slot is -24 - 8 * index. -/
theorem GetStackSlot_disp_strictly_decreasing (i j : Nat) (hij : i < j)
    (hj : j ≤ 268435453) :
    (liftoff.GetStackSlot j).disp < (liftoff.GetStackSlot i).disp
    ∧ (liftoff.GetStackSlot i).disp = -24 - 8 * (i : Int)
    ∧ (liftoff.GetStackSlot j).disp = -24 - 8 * (j : Int)
    ∧ (liftoff.GetStackSlot i).base = .ebp ∧ (liftoff.GetStackSlot j).base = .ebp := by
  have hi : i ≤ 268435453 := by omega
  refine ⟨?_, GetStackSlot_disp i hi, GetStackSlot_disp j hj, rfl, rfl⟩
  rw [GetStackSlot_disp i hi, GetStackSlot_disp j hj]
  omega

/-- C7 (witness): slots 0 and 268435453, the two ends of the range. -/
theorem GetStackSlot_disp_strictly_decreasing_witness :
    (liftoff.GetStackSlot 268435453).disp < (liftoff.GetStackSlot 0).disp
    ∧ (liftoff.GetStackSlot 0).disp = -24
    ∧ (liftoff.GetStackSlot 268435453).disp = -2147483648 := by
  obtain ⟨h1, h2, h3, _⟩ := GetStackSlot_disp_strictly_decreasing 0 268435453 (by decide)
    (by decide)
  exact ⟨h1, h2, h3⟩

/-- C7 (counterexample): for i = 0 < j = 268435454 the 32-bit arithmetic wraps: the
displacement of GetStackSlot(j) is 2147483640, not less than the displacement
-24 of GetStackSlot(i). -/
theorem GetStackSlot_disp_not_decreasing :
    (0 : Nat) < 268435454
    ∧ (liftoff.GetStackSlot 268435454).disp = 2147483640
    ∧ (liftoff.GetStackSlot 0).disp = -24
    ∧ ¬ (liftoff.GetStackSlot 268435454).disp < (liftoff.GetStackSlot 0).disp := by
  refine ⟨by decide, by decide, by decide, by decide⟩

/-- C8 (amended): GetStackSlot(i) is the operand GetContextOperand() (ebp - 16)
exactly for the indices i with i mod 2^29 = 2^29 - 1, where -24 - 8 * i wraps to
-16 in 32 bits; for every other index, in particular every i < 536870911, the
two operands differ. -/
theorem GetStackSlot_eq_GetContextOperand_iff (i : Nat) :
    liftoff.GetStackSlot i = liftoff.GetContextOperand ↔ i % 536870912 = 536870911 := by
  have h1 : to_uint32 (-24) = 4294967272 := by decide
  have h2 : to_uint32 8 = 8 := by decide
  simp only [liftoff.GetStackSlot, liftoff.GetContextOperand, Operand.base_disp, h1, h2,
    to_int32, Operand.mk.injEq, true_and]
  split <;> omega

/-- C8 (counterexample): GetStackSlot(536870911) is the context operand. -/
theorem GetStackSlot_hits_context :
    liftoff.GetStackSlot 536870911 = liftoff.GetContextOperand
    ∧ liftoff.GetContextOperand = Operand.base_disp .ebp (-16) := by
  refine ⟨by decide, rfl⟩

/-! ## LoadConstant and ReserveStackSpace -/

/-- C9: for every i32 constant v and general-purpose destination reg, LoadConstant
succeeds and the sequence it emits depends on reg and v only: the single
xor(reg, reg) when v = 0 and the single mov(reg, Immediate(v)) otherwise.  Run
from any machine state it leaves reg holding v (the bit pattern of v, which
reads back as v); for v = 0 that is 0 whatever reg held before. -/
theorem LoadConstant_i32 (a : LiftoffAssembler) (m : Machine) (reg : Register) (v : Int)
    (hlo : -2147483648 ≤ v) (hhi : v < 2147483648) :
    ∃ a1, a.LoadConstant (.of_gp reg) (.i32 v) = .ok a1
      ∧ emitted a a1 = (if v = 0 then [Instr.xor_ reg reg] else [Instr.mov_ri reg v])
      ∧ (exec (emitted a a1) m).1.regs reg = to_uint32 v
      ∧ to_int32 ((exec (emitted a a1) m).1.regs reg) = v
      ∧ (v = 0 → (exec (emitted a a1) m).1.regs reg = 0) := by
  have hlt : to_uint32 v < 4294967296 := by unfold to_uint32; omega
  by_cases hv : v = 0
  · subst hv
    have h0 : to_uint32 0 = 0 := by decide
    have h1 : to_int32 0 = 0 := by decide
    have hx : Nat.xor (m.regs reg) (m.regs reg) = 0 := Nat.xor_self _
    refine ⟨a.emit (.xor_ reg reg), rfl, ?_, ?_, ?_, ?_⟩
    · simp [emitted_emit]
    · simp [emitted_emit, exec, Instr.branch, Instr.step, Machine.setReg, Machine.setZF, h0, hx]
    · simp [emitted_emit, exec, Instr.branch, Instr.step, Machine.setReg, Machine.setZF, h1, hx]
    · intro _
      simp [emitted_emit, exec, Instr.branch, Instr.step, Machine.setReg, Machine.setZF, hx]
  · have hc : a.LoadConstant (.of_gp reg) (.i32 v) = .ok (a.emit (.mov_ri reg v)) := by
      simp [LiftoffAssembler.LoadConstant, WasmValue.type, WasmValue.to_i32, hv,
        LiftoffRegister.gp, bind, Except.bind, pure, Except.pure]
    have hr : (exec [Instr.mov_ri reg v] m).1.regs reg = to_uint32 v := by
      simp [exec, Instr.branch, Instr.step, Machine.setReg, Nat.mod_eq_of_lt hlt]
    refine ⟨_, hc, ?_, ?_, ?_, ?_⟩
    · simp [emitted_emit, hv]
    · rw [emitted_emit, hr]
    · rw [emitted_emit, hr]
      exact to_int32_to_uint32 v hlo hhi
    · intro h
      exact absurd h hv

/-- C9 (witness): the constant -1 loaded into edx, from a machine whose registers
all hold 77. -/
theorem LoadConstant_i32_witness :
    ∃ a1, (LiftoffAssembler.start []).LoadConstant (.of_gp .edx) (.i32 (-1)) = .ok a1
      ∧ emitted (LiftoffAssembler.start []) a1 = [Instr.mov_ri .edx (-1)]
      ∧ (exec (emitted (LiftoffAssembler.start []) a1)
          (Machine.init (fun _ => 77) (fun _ => 0))).1.regs .edx = 4294967295 := by
  obtain ⟨a1, h1, h2, h3, _⟩ := LoadConstant_i32 (LiftoffAssembler.start [])
    (Machine.init (fun _ => 77) (fun _ => 0)) .edx (-1) (by decide) (by decide)
  refine ⟨a1, h1, ?_, ?_⟩
  · rw [h2]; decide
  · rw [h3]; decide

/-- C10 (amended): ReserveStackSpace never aborts.  Every call, also one on an
assembler whose stack space is already reserved, sets stack_space_ to its
argument and emits one sub esp, Immediate(space); two calls in a row succeed,
leave two stack-pointer adjustments in the code and stack_space_ holding the
second argument. -/
theorem ReserveStackSpace_never_fatal (a : LiftoffAssembler) (space1 space2 : Nat) :
    ∃ a1 a2, a.ReserveStackSpace space1 = .ok a1
      ∧ a1.ReserveStackSpace space2 = .ok a2
      ∧ a1.stack_space_ = space1
      ∧ emitted a a1 = [Instr.sub_ri .esp (to_int32 space1)]
      ∧ a2.stack_space_ = space2
      ∧ emitted a1 a2 = [Instr.sub_ri .esp (to_int32 space2)]
      ∧ emitted a a2
        = [Instr.sub_ri .esp (to_int32 space1), Instr.sub_ri .esp (to_int32 space2)] := by
  refine ⟨_, _, rfl, rfl, rfl, ?_, rfl, ?_, ?_⟩
  · exact emitted_of_code_eq _ _ _ rfl
  · exact emitted_of_code_eq _ _ _ rfl
  · exact emitted_of_code_eq _ _ _ (by simp [LiftoffAssembler.emit])

/-- C10 (counterexample): after ReserveStackSpace(16) on a fresh assembler, a
second call ReserveStackSpace(32) does not abort: it returns an assembler
whose code holds both sub esp, 16 and sub esp, 32 and whose stack_space_ has
been overwritten with 32. -/
theorem ReserveStackSpace_twice_not_fatal :
    ∃ a1 a2, (LiftoffAssembler.start []).ReserveStackSpace 16 = .ok a1
      ∧ a1.stack_space_ = 16
      ∧ a1.ReserveStackSpace 32 = .ok a2
      ∧ a2.code = [Instr.sub_ri .esp 16, Instr.sub_ri .esp 32]
      ∧ a2.stack_space_ = 32 :=
  ⟨_, _, rfl, rfl, rfl, by decide, rfl⟩

/-! ## Move -/

theorem isFatal_eq_false_iff {α : Type} (r : Except Fatal α) :
    isFatal r = false ↔ ∃ x, r = .ok x := by
  cases r with
  | error e => simp [isFatal]
  | ok x => simp [isFatal]

/-- C11: Move(dst, src) aborts exactly when dst = src or the two registers are of
different classes.  Otherwise it emits one instruction: mov(dst.gp, src.gp) for
general-purpose registers, after which dst holds the 32-bit value of src, and
movsd(dst.fp, src.fp) for floating-point registers, after which dst holds the
value of src. -/
theorem Move_contract (a : LiftoffAssembler) (m : Machine) (dst src : LiftoffRegister)
    (hm : m.WF) :
    (isFatal (a.Move dst src) = true ↔ (dst = src ∨ dst.reg_class ≠ src.reg_class))
    ∧ (∀ d s, dst = .of_gp d → src = .of_gp s → d ≠ s →
        a.Move dst src = .ok (a.emit (.mov_rr d s))
        ∧ emitted a (a.emit (.mov_rr d s)) = [Instr.mov_rr d s]
        ∧ (exec [Instr.mov_rr d s] m).1.regs d = m.regs s)
    ∧ (∀ d s, dst = .of_fp d → src = .of_fp s → d ≠ s →
        a.Move dst src = .ok (a.emit (.movsd d s))
        ∧ emitted a (a.emit (.movsd d s)) = [Instr.movsd d s]
        ∧ (exec [Instr.movsd d s] m).1.xmm d = m.xmm s) := by
  refine ⟨?_, ?_, ?_⟩
  · cases dst with
    | of_gp d =>
      cases src with
      | of_gp s =>
        by_cases h : d = s
        · simp [LiftoffAssembler.Move, DCHECK, h, isFatal, bind, Except.bind]
        · simp [LiftoffAssembler.Move, DCHECK, h, isFatal, bind, Except.bind, pure, Except.pure,
            LiftoffRegister.reg_class, LiftoffRegister.is_gp, LiftoffRegister.gp]
      | of_fp s =>
        simp [LiftoffAssembler.Move, DCHECK, isFatal, bind, Except.bind,
          LiftoffRegister.reg_class]
    | of_fp d =>
      cases src with
      | of_gp s =>
        simp [LiftoffAssembler.Move, DCHECK, isFatal, bind, Except.bind,
          LiftoffRegister.reg_class]
      | of_fp s =>
        by_cases h : d = s
        · simp [LiftoffAssembler.Move, DCHECK, h, isFatal, bind, Except.bind]
        · simp [LiftoffAssembler.Move, DCHECK, h, isFatal, bind, Except.bind, pure, Except.pure,
            LiftoffRegister.reg_class, LiftoffRegister.is_gp, LiftoffRegister.fp]
  · intro d s hd hs hne
    subst hd hs
    refine ⟨?_, emitted_emit _ _, ?_⟩
    · simp [LiftoffAssembler.Move, DCHECK, hne, bind, Except.bind, pure, Except.pure,
        LiftoffRegister.reg_class, LiftoffRegister.is_gp, LiftoffRegister.gp]
    · simp [exec, Instr.branch, Instr.step, Machine.setReg, Nat.mod_eq_of_lt (hm s)]
  · intro d s hd hs hne
    subst hd hs
    refine ⟨?_, emitted_emit _ _, ?_⟩
    · simp [LiftoffAssembler.Move, DCHECK, hne, bind, Except.bind, pure, Except.pure,
        LiftoffRegister.reg_class, LiftoffRegister.is_gp, LiftoffRegister.fp]
    · simp [exec, Instr.branch, Instr.step]

/-- C11 (witness): Move(ecx, edx) on a machine whose registers all hold 9 except
edx, which holds 5. -/
theorem Move_contract_witness :
    isFatal ((LiftoffAssembler.start []).Move (.of_gp .ecx) (.of_gp .edx)) = false
    ∧ isFatal ((LiftoffAssembler.start []).Move (.of_gp .ecx) (.of_gp .ecx)) = true
    ∧ isFatal ((LiftoffAssembler.start []).Move (.of_gp .ecx) (.of_fp .xmm1)) = true
    ∧ (exec [Instr.mov_rr .ecx .edx]
        (Machine.init (fun r => if r = .edx then 5 else 9) (fun _ => 0))).1.regs .ecx = 5 := by
  have hwf : (Machine.init (fun r => if r = .edx then 5 else 9) (fun _ => 0)).WF := by
    intro r; cases r <;> decide
  have h := Move_contract (LiftoffAssembler.start [])
    (Machine.init (fun r => if r = .edx then 5 else 9) (fun _ => 0)) (.of_gp .ecx) (.of_gp .edx)
    hwf
  refine ⟨by decide, by decide, by decide, ?_⟩
  rw [(h.2.1 .ecx .edx rfl rfl (by decide)).2.2]
  decide

/-! ## Fatal paths of LoadConstant, Load, Store and LoadFromContext -/

theorem Load_isFatal_iff (a : LiftoffAssembler) (dst : LiftoffRegister) (base : Register)
    (offset_imm : Nat) (size : Int) (pinned : List LiftoffRegister) :
    isFatal (a.Load dst base offset_imm size pinned) = true
      ↔ (size ≠ 4 ∨ isFatal dst.gp = true
          ∨ (offset_imm > kMaxInt ∧ isFatal (a.GetUnusedRegister .kGpReg pinned) = true)) := by
  by_cases h : offset_imm > kMaxInt
  · cases hg : a.GetUnusedRegister .kGpReg pinned with
    | error e => simp [LiftoffAssembler.Load, h, hg, isFatal, bind, Except.bind]
    | ok x =>
      obtain ⟨r, hx, _, _⟩ := GetUnusedRegister_gp_ok a pinned x hg
      subst hx
      by_cases hs : size = 4
      · subst hs
        cases dst <;>
          simp [LiftoffAssembler.Load, h, hg, isFatal, DCHECK, LiftoffRegister.gp, bind,
            Except.bind, pure, Except.pure]
      · have hs2 : ¬ (4 : Int) = size := fun h4 => hs h4.symm
        simp [LiftoffAssembler.Load, h, hg, hs, hs2, isFatal, DCHECK, LiftoffRegister.gp, bind,
          Except.bind, pure, Except.pure]
  · by_cases hs : size = 4
    · subst hs
      cases dst <;>
        simp [LiftoffAssembler.Load, h, isFatal, DCHECK, LiftoffRegister.gp, bind,
          Except.bind, pure, Except.pure]
    · have hs2 : ¬ (4 : Int) = size := fun h4 => hs h4.symm
      simp [LiftoffAssembler.Load, h, hs, hs2, isFatal, DCHECK, bind, Except.bind, pure,
        Except.pure]

theorem Store_isFatal_iff (a : LiftoffAssembler) (base : Register) (offset_imm : Nat)
    (src : LiftoffRegister) (size : Int) (pinned : List LiftoffRegister) :
    isFatal (a.Store base offset_imm src size pinned) = true
      ↔ (size ≠ 4 ∨ isFatal src.gp = true
          ∨ (offset_imm > kMaxInt ∧ isFatal (a.GetUnusedRegister .kGpReg pinned) = true)) := by
  by_cases h : offset_imm > kMaxInt
  · cases hg : a.GetUnusedRegister .kGpReg pinned with
    | error e => simp [LiftoffAssembler.Store, h, hg, isFatal, bind, Except.bind]
    | ok x =>
      obtain ⟨r, hx, _, _⟩ := GetUnusedRegister_gp_ok a pinned x hg
      subst hx
      by_cases hs : size = 4
      · subst hs
        cases src <;>
          simp [LiftoffAssembler.Store, h, hg, isFatal, DCHECK, LiftoffRegister.gp, bind,
            Except.bind, pure, Except.pure]
      · have hs2 : ¬ (4 : Int) = size := fun h4 => hs h4.symm
        simp [LiftoffAssembler.Store, h, hg, hs, hs2, isFatal, DCHECK, LiftoffRegister.gp, bind,
          Except.bind, pure, Except.pure]
  · by_cases hs : size = 4
    · subst hs
      cases src <;>
        simp [LiftoffAssembler.Store, h, isFatal, DCHECK, LiftoffRegister.gp, bind,
          Except.bind, pure, Except.pure]
    · have hs2 : ¬ (4 : Int) = size := fun h4 => hs h4.symm
      simp [LiftoffAssembler.Store, h, hs, hs2, isFatal, DCHECK, bind, Except.bind, pure,
        Except.pure]

theorem LoadFromContext_isFatal_iff (a : LiftoffAssembler) (dst : Register) (offset : Nat)
    (size : Int) :
    isFatal (a.LoadFromContext dst offset size) = true ↔ (size ≠ 4 ∨ offset > kMaxInt) := by
  by_cases h : offset ≤ kMaxInt
  · have h2 : ¬ offset > kMaxInt := by omega
    by_cases hs : size = 4
    · subst hs
      simp [LiftoffAssembler.LoadFromContext, h, h2, isFatal, DCHECK, bind, Except.bind, pure,
        Except.pure]
    · have hs2 : ¬ (4 : Int) = size := fun h4 => hs h4.symm
      simp [LiftoffAssembler.LoadFromContext, h, hs, hs2, isFatal, DCHECK, bind, Except.bind,
        pure, Except.pure]
  · have h2 : offset > kMaxInt := by omega
    simp [LiftoffAssembler.LoadFromContext, h, h2, isFatal, DCHECK, bind, Except.bind]

/-- C13: Load, Store and LoadFromContext each abort whenever size is not 4, whatever
the other arguments are.  With size 4 they abort only for reasons that do not
involve the size: Load and Store when the value register is not
general-purpose or when offset_imm > kMaxInt and no scratch register is
available, LoadFromContext when offset > kMaxInt. -/
theorem size_not_4_fatal (a : LiftoffAssembler) (reg : LiftoffRegister) (r base : Register)
    (offset_imm : Nat) (size : Int) (pinned : List LiftoffRegister) (hs : size ≠ 4) :
    isFatal (a.Load reg base offset_imm size pinned) = true
    ∧ isFatal (a.Store base offset_imm reg size pinned) = true
    ∧ isFatal (a.LoadFromContext r offset_imm size) = true
    ∧ (isFatal (a.Load reg base offset_imm 4 pinned) = true
        ↔ (isFatal reg.gp = true
          ∨ (offset_imm > kMaxInt ∧ isFatal (a.GetUnusedRegister .kGpReg pinned) = true)))
    ∧ (isFatal (a.Store base offset_imm reg 4 pinned) = true
        ↔ (isFatal reg.gp = true
          ∨ (offset_imm > kMaxInt ∧ isFatal (a.GetUnusedRegister .kGpReg pinned) = true)))
    ∧ (isFatal (a.LoadFromContext r offset_imm 4) = true ↔ offset_imm > kMaxInt) := by
  refine ⟨?_, ?_, ?_, ?_, ?_, ?_⟩
  · exact (Load_isFatal_iff a reg base offset_imm size pinned).2 (Or.inl hs)
  · exact (Store_isFatal_iff a base offset_imm reg size pinned).2 (Or.inl hs)
  · exact (LoadFromContext_isFatal_iff a r offset_imm size).2 (Or.inl hs)
  · rw [Load_isFatal_iff]; simp
  · rw [Store_isFatal_iff]; simp
  · rw [LoadFromContext_isFatal_iff]; simp

/-- C13 (witness): size 8 with offset 12 aborts in all three operations, size 4
does not. -/
theorem size_not_4_fatal_witness :
    isFatal ((LiftoffAssembler.start []).Load (.of_gp .eax) .ebx 12 8 []) = true
    ∧ isFatal ((LiftoffAssembler.start []).Store .ebx 12 (.of_gp .eax) 8 []) = true
    ∧ isFatal ((LiftoffAssembler.start []).LoadFromContext .eax 12 8) = true
    ∧ isFatal ((LiftoffAssembler.start []).Load (.of_gp .eax) .ebx 12 4 []) = false
    ∧ isFatal ((LiftoffAssembler.start []).Store .ebx 12 (.of_gp .eax) 4 []) = false
    ∧ isFatal ((LiftoffAssembler.start []).LoadFromContext .eax 12 4) = false := by
  obtain ⟨h1, h2, h3, _⟩ := size_not_4_fatal (LiftoffAssembler.start []) (.of_gp .eax) .eax .ebx
    12 8 [] (by decide)
  exact ⟨h1, h2, h3, by decide, by decide, by decide⟩

/-! ## LoadFromContext and JumpIfZero -/

/-- C14: for every register dst and every offset <= kMaxInt, LoadFromContext(dst,
offset, 4) succeeds and emits exactly two loads, both into dst:
mov dst, [ebp-16] and mov dst, [dst+offset].  Run from any machine state they
leave dst holding the 32-bit word at address (context pointer + offset) mod
2^32, the context pointer being the word in the context slot at ebp - 16; no
other register and no memory is modified. -/
theorem LoadFromContext_loads (a : LiftoffAssembler) (m : Machine) (dst : Register)
    (offset : Nat) (hoff : offset ≤ kMaxInt) :
    ∃ a1, a.LoadFromContext dst offset 4 = .ok a1
      ∧ emitted a a1
        = [Instr.mov_rm dst liftoff.GetContextOperand,
           Instr.mov_rm dst (Operand.base_disp dst (to_int32 offset))]
      ∧ liftoff.GetContextOperand = Operand.base_disp .ebp (-16)
      ∧ (exec (emitted a a1) m).1.regs dst
        = load32 m.mem ((contextWord m + offset) % 4294967296)
      ∧ (∀ r, r ≠ dst → (exec (emitted a a1) m).1.regs r = m.regs r)
      ∧ (exec (emitted a a1) m).1.mem = m.mem
      ∧ (exec (emitted a a1) m).1.xmm = m.xmm := by
  have hk : offset < 4294967296 := by unfold kMaxInt at hoff; omega
  have e2 : ∀ (mem : Nat → Nat) (x : Nat), load32 mem (x % 4294967296) = load32 mem x := by
    intro mem x; simp [load32]
  have e3 : to_uint32 (to_int32 offset) = offset := by
    rw [to_uint32_to_int32]; exact Nat.mod_eq_of_lt hk
  refine ⟨(a.emit (.mov_rm dst liftoff.GetContextOperand)).emit
      (.mov_rm dst (Operand.base_disp dst (to_int32 offset))), ?_, emitted_emit_emit _ _ _, rfl,
    ?_, ?_, ?_, ?_⟩
  · simp [LiftoffAssembler.LoadFromContext, hoff, DCHECK, bind, Except.bind, pure, Except.pure]
  · rw [emitted_emit_emit]
    simp [exec, Instr.branch, Instr.step, Machine.setReg, Machine.ea, Operand.base_disp,
      contextWord, e2, e3, Nat.mod_eq_of_lt (load32_lt _ _)]
  · intro r hr
    rw [emitted_emit_emit]
    simp [exec, Instr.branch, Instr.step, Machine.setReg, hr]
  · rw [emitted_emit_emit]
    simp [exec, Instr.branch, Instr.step, Machine.setReg]
  · rw [emitted_emit_emit]
    simp [exec, Instr.branch, Instr.step, Machine.setReg]

/-- C14 (witness): dst = ebp itself, offset 8, on a machine with ebp = 4096 whose
context slot (address 4080) holds the pointer 512 and whose word at 520 is 77. -/
theorem LoadFromContext_loads_witness :
    ∃ a1, (LiftoffAssembler.start []).LoadFromContext .ebp 8 4 = .ok a1
      ∧ (exec (emitted (LiftoffAssembler.start []) a1)
          (Machine.init (fun _ => 4096)
            (fun x => if x = 4081 then 2 else if x = 520 then 77 else 0))).1.regs .ebp = 77 := by
  obtain ⟨a1, h1, _, _, h4, _⟩ := LoadFromContext_loads (LiftoffAssembler.start [])
    (Machine.init (fun _ => 4096) (fun x => if x = 4081 then 2 else if x = 520 then 77 else 0))
    .ebp 8 (by decide)
  refine ⟨a1, h1, ?_⟩
  rw [h4]; decide

/-- C15: JumpIfZero(reg, label) emits test(reg, reg) followed by j(zero, label).
Run on a machine in which reg holds a 32-bit value, the pair transfers control
to label when reg holds 0 and falls through otherwise, and changes no register
and no memory. -/
theorem JumpIfZero_branches (a : LiftoffAssembler) (m : Machine) (reg : Register)
    (label : Label) (hreg : m.regs reg < 4294967296) :
    emitted a (a.JumpIfZero reg label) = [Instr.test reg reg, Instr.j .zero label]
    ∧ ((exec (emitted a (a.JumpIfZero reg label)) m).2 = some label ↔ m.regs reg = 0)
    ∧ ((exec (emitted a (a.JumpIfZero reg label)) m).2 = none ↔ m.regs reg ≠ 0)
    ∧ (exec (emitted a (a.JumpIfZero reg label)) m).1.regs = m.regs
    ∧ (exec (emitted a (a.JumpIfZero reg label)) m).1.xmm = m.xmm
    ∧ (exec (emitted a (a.JumpIfZero reg label)) m).1.mem = m.mem := by
  have hl : Nat.land (m.regs reg) (m.regs reg) = m.regs reg := Nat.and_self _
  have he : emitted a (a.JumpIfZero reg label) = [Instr.test reg reg, Instr.j .zero label] :=
    emitted_emit_emit _ _ _
  have hx : exec [Instr.test reg reg, Instr.j .zero label] m
      = ({ m with zf := decide (m.regs reg % 4294967296 = 0) },
          if m.regs reg % 4294967296 = 0 then some label else none) := by
    by_cases h0 : m.regs reg % 4294967296 = 0 <;>
      simp [exec, Instr.branch, Instr.step, Machine.setZF, Condition.holds, hl, h0]
  have hz : m.regs reg % 4294967296 = 0 ↔ m.regs reg = 0 := by omega
  rw [he, hx]
  refine ⟨rfl, ?_, ?_, rfl, rfl, rfl⟩
  · by_cases h0 : m.regs reg = 0
    · simp [h0]
    · simp [h0, hz]
  · by_cases h0 : m.regs reg = 0
    · simp [h0]
    · simp [h0, hz]

/-- C15 (witness): the branch is taken on eax = 0 and not taken on ecx = 3. -/
theorem JumpIfZero_branches_witness :
    (exec (emitted (LiftoffAssembler.start []) ((LiftoffAssembler.start []).JumpIfZero .eax ⟨5⟩))
        (Machine.init (fun r => if r = .eax then 0 else 3) (fun _ => 0))).2 = some ⟨5⟩
    ∧ (exec (emitted (LiftoffAssembler.start []) ((LiftoffAssembler.start []).JumpIfZero .ecx ⟨5⟩))
        (Machine.init (fun r => if r = .eax then 0 else 3) (fun _ => 0))).2 = none :=
  ⟨(JumpIfZero_branches (LiftoffAssembler.start [])
      (Machine.init (fun r => if r = .eax then 0 else 3) (fun _ => 0)) .eax ⟨5⟩
      (by decide)).2.1.2 (by decide),
   (JumpIfZero_branches (LiftoffAssembler.start [])
      (Machine.init (fun r => if r = .eax then 0 else 3) (fun _ => 0)) .ecx ⟨5⟩
      (by decide)).2.2.1.2 (by decide)⟩

/-! ## MoveStackValue: the fatal path -/

/-- C16: MoveStackValue(dst_index, src_index) aborts exactly when dst_index =
src_index.  For equal indices nothing is emitted; for distinct indices it
succeeds both when a scratch register is free (two mov through it) and when
none is (push and pop). -/
theorem MoveStackValue_isFatal_iff (a : LiftoffAssembler) (dst_index src_index : Nat) :
    (isFatal (a.MoveStackValue dst_index src_index) = true ↔ dst_index = src_index)
    ∧ (dst_index = src_index → a.MoveStackValue dst_index src_index = .error .dcheck)
    ∧ (dst_index ≠ src_index → a.cache_state_.has_unused_register .kGpReg [] = true →
        ∃ reg, a.MoveStackValue dst_index src_index
          = .ok ((a.emit (.mov_rm reg (liftoff.GetStackSlot src_index))).emit
              (.mov_mr (liftoff.GetStackSlot dst_index) reg)))
    ∧ (dst_index ≠ src_index → a.cache_state_.has_unused_register .kGpReg [] = false →
        a.MoveStackValue dst_index src_index
          = .ok ((a.emit (.push_m (liftoff.GetStackSlot src_index))).emit
              (.pop_m (liftoff.GetStackSlot dst_index)))) := by
  have heq : dst_index = src_index → a.MoveStackValue dst_index src_index = .error .dcheck := by
    intro h
    simp [LiftoffAssembler.MoveStackValue, DCHECK, h, bind, Except.bind]
  have hfree : dst_index ≠ src_index → a.cache_state_.has_unused_register .kGpReg [] = true →
      ∃ reg, a.MoveStackValue dst_index src_index
        = .ok ((a.emit (.mov_rm reg (liftoff.GetStackSlot src_index))).emit
            (.mov_mr (liftoff.GetStackSlot dst_index) reg)) := by
    intro hne hu
    obtain ⟨reg, hr, _, _⟩ := GetUnusedRegister_of_has_unused a [] hu
    exact ⟨reg, MoveStackValue_free a dst_index src_index hne reg hu hr⟩
  refine ⟨?_, heq, hfree, fun hne hu => MoveStackValue_starved a dst_index src_index hne hu⟩
  constructor
  · intro hf
    by_contra hne
    cases hu : a.cache_state_.has_unused_register .kGpReg [] with
    | true =>
      obtain ⟨reg, hr⟩ := hfree hne hu
      rw [hr] at hf
      simp [isFatal] at hf
    | false =>
      rw [MoveStackValue_starved a dst_index src_index hne hu] at hf
      simp [isFatal] at hf
  · intro h
    rw [heq h]
    rfl

/-- C16 (witness): equal indices abort; distinct indices succeed with a free
register and with every cache register in use. -/
theorem MoveStackValue_isFatal_iff_witness :
    (LiftoffAssembler.start []).MoveStackValue 2 2 = .error .dcheck
    ∧ isFatal ((LiftoffAssembler.start []).MoveStackValue 2 3) = false
    ∧ isFatal ((LiftoffAssembler.start [.of_gp .eax, .of_gp .ecx, .of_gp .edx, .of_gp .ebx,
        .of_gp .esi, .of_gp .edi]).MoveStackValue 2 3) = false :=
  ⟨(MoveStackValue_isFatal_iff (LiftoffAssembler.start []) 2 2).2.1 rfl, by decide, by decide⟩

/-! ## Binary operations: length and frame -/

/-- C17: for each of add, sub, mul, and, or, xor and every aliasing of dst, lhs,
rhs, the ia32 emitter emits at most two instructions, and exactly one when
dst = lhs and dst differs from rhs. -/
theorem emit_i32_binop_length (a : LiftoffAssembler) (dst lhs rhs : Register) :
    ((emitted a (a.emit_i32_add dst lhs rhs)).length ≤ 2
      ∧ (emitted a (a.emit_i32_sub dst lhs rhs)).length ≤ 2
      ∧ (emitted a (a.emit_i32_mul dst lhs rhs)).length ≤ 2
      ∧ (emitted a (a.emit_i32_and dst lhs rhs)).length ≤ 2
      ∧ (emitted a (a.emit_i32_or dst lhs rhs)).length ≤ 2
      ∧ (emitted a (a.emit_i32_xor dst lhs rhs)).length ≤ 2)
    ∧ (dst = lhs ∧ dst ≠ rhs →
      (emitted a (a.emit_i32_add dst lhs rhs)).length = 1
      ∧ (emitted a (a.emit_i32_sub dst lhs rhs)).length = 1
      ∧ (emitted a (a.emit_i32_mul dst lhs rhs)).length = 1
      ∧ (emitted a (a.emit_i32_and dst lhs rhs)).length = 1
      ∧ (emitted a (a.emit_i32_or dst lhs rhs)).length = 1
      ∧ (emitted a (a.emit_i32_xor dst lhs rhs)).length = 1) := by
  have hc : ∀ instruction : Register → Register → Instr,
      (emitted a (LiftoffAssembler.COMMUTATIVE_I32_BINOP instruction a dst lhs rhs)).length
        = (if dst = rhs then 1 else if dst = lhs then 1 else 2) := by
    intro instruction
    unfold LiftoffAssembler.COMMUTATIVE_I32_BINOP
    by_cases h1 : dst = rhs
    · simp [h1, emitted_emit]
    · by_cases h2 : dst = lhs
      · subst h2
        simp [h1, emitted_emit]
      · simp [h1, h2, emitted_emit_emit]
  have hadd : (emitted a (a.emit_i32_add dst lhs rhs)).length = 1 := by
    unfold LiftoffAssembler.emit_i32_add
    by_cases h : lhs = dst <;> simp [h, emitted_emit]
  have hsub : (emitted a (a.emit_i32_sub dst lhs rhs)).length
      = (if dst = rhs then 2 else if dst = lhs then 1 else 2) := by
    unfold LiftoffAssembler.emit_i32_sub
    by_cases h1 : dst = rhs
    · simp [h1, emitted_emit_emit]
    · by_cases h2 : dst = lhs
      · subst h2
        simp [h1, emitted_emit]
      · simp [h1, h2, emitted_emit_emit]
  have hmul := hc Instr.imul
  have hand := hc Instr.and_
  have hor := hc Instr.or_
  have hxor := hc Instr.xor_
  refine ⟨⟨?_, ?_, ?_, ?_, ?_, ?_⟩, ?_⟩
  · omega
  · rw [hsub]; split <;> [skip; split] <;> omega
  · show (emitted a (LiftoffAssembler.COMMUTATIVE_I32_BINOP Instr.imul a dst lhs rhs)).length ≤ 2
    rw [hmul]; split <;> [skip; split] <;> omega
  · show (emitted a (LiftoffAssembler.COMMUTATIVE_I32_BINOP Instr.and_ a dst lhs rhs)).length ≤ 2
    rw [hand]; split <;> [skip; split] <;> omega
  · show (emitted a (LiftoffAssembler.COMMUTATIVE_I32_BINOP Instr.or_ a dst lhs rhs)).length ≤ 2
    rw [hor]; split <;> [skip; split] <;> omega
  · show (emitted a (LiftoffAssembler.COMMUTATIVE_I32_BINOP Instr.xor_ a dst lhs rhs)).length ≤ 2
    rw [hxor]; split <;> [skip; split] <;> omega
  · rintro ⟨h1, h2⟩
    have hs : (if dst = rhs then 2 else if dst = lhs then 1 else 2) = 1 := by
      rw [if_neg h2, if_pos h1]
    have hk : (if dst = rhs then 1 else if dst = lhs then 1 else 2) = 1 := by
      rw [if_neg h2, if_pos h1]
    exact ⟨hadd, hsub.trans hs, hmul.trans hk, hand.trans hk, hor.trans hk, hxor.trans hk⟩

/-- C17 (witness): dst = lhs = eax, rhs = ecx gives one instruction for every
operation. -/
theorem emit_i32_binop_length_witness :
    (emitted (LiftoffAssembler.start [])
        ((LiftoffAssembler.start []).emit_i32_add .eax .eax .ecx)).length = 1
    ∧ (emitted (LiftoffAssembler.start [])
        ((LiftoffAssembler.start []).emit_i32_sub .eax .eax .ecx)).length = 1
    ∧ (emitted (LiftoffAssembler.start [])
        ((LiftoffAssembler.start []).emit_i32_mul .eax .eax .ecx)).length = 1
    ∧ (emitted (LiftoffAssembler.start [])
        ((LiftoffAssembler.start []).emit_i32_and .eax .eax .ecx)).length = 1
    ∧ (emitted (LiftoffAssembler.start [])
        ((LiftoffAssembler.start []).emit_i32_or .eax .eax .ecx)).length = 1
    ∧ (emitted (LiftoffAssembler.start [])
        ((LiftoffAssembler.start []).emit_i32_xor .eax .eax .ecx)).length = 1 :=
  (emit_i32_binop_length (LiftoffAssembler.start []) .eax .eax .ecx).2 ⟨rfl, by decide⟩

/-- The body shared by the commutative operations changes only `dst`, for every
instruction that writes only its destination register. -/
theorem COMMUTATIVE_I32_BINOP_frame (instruction : Register → Register → Instr)
    (hbranch : ∀ d s m, (instruction d s).branch m = none)
    (hregs : ∀ d s m r, r ≠ d → ((instruction d s).step m).regs r = m.regs r)
    (hmem : ∀ d s m, ((instruction d s).step m).mem = m.mem)
    (a : LiftoffAssembler) (m : Machine) (dst lhs rhs r : Register) (hr : r ≠ dst) :
    (exec (emitted a (LiftoffAssembler.COMMUTATIVE_I32_BINOP instruction a dst lhs rhs)) m).1.regs r
      = m.regs r
    ∧ (exec (emitted a (LiftoffAssembler.COMMUTATIVE_I32_BINOP instruction a dst lhs rhs)) m).1.mem
      = m.mem := by
  unfold LiftoffAssembler.COMMUTATIVE_I32_BINOP
  by_cases h1 : dst = rhs
  · rw [if_pos h1, emitted_emit, exec_single _ _ (hbranch _ _ _)]
    exact ⟨hregs _ _ _ _ hr, hmem _ _ _⟩
  · by_cases h2 : dst = lhs
    · subst h2
      simp only [h1, if_false, ne_eq, not_true_eq_false, emitted_emit]
      rw [exec_single _ _ (hbranch _ _ _)]
      exact ⟨hregs _ _ _ _ hr, hmem _ _ _⟩
    · simp only [h1, h2, if_false, ne_eq, not_false_eq_true, if_true, emitted_emit_emit,
        exec_mov_rr_cons]
      rw [exec_single _ _ (hbranch _ _ _)]
      refine ⟨?_, ?_⟩
      · rw [hregs _ _ _ _ hr]
        simp [Machine.setReg, hr]
      · rw [hmem]
        simp [Machine.setReg]

/-- C18: for each of add, sub, mul, and, or, xor and every aliasing of dst, lhs,
rhs, running the emitted ia32 sequence leaves every general-purpose register
other than dst with its initial value (so lhs and rhs, whenever they are not
dst) and writes no memory. -/
theorem emit_i32_binop_frame (a : LiftoffAssembler) (m : Machine) (dst lhs rhs r : Register)
    (hr : r ≠ dst) :
    ((exec (emitted a (a.emit_i32_add dst lhs rhs)) m).1.regs r = m.regs r
      ∧ (exec (emitted a (a.emit_i32_add dst lhs rhs)) m).1.mem = m.mem)
    ∧ ((exec (emitted a (a.emit_i32_sub dst lhs rhs)) m).1.regs r = m.regs r
      ∧ (exec (emitted a (a.emit_i32_sub dst lhs rhs)) m).1.mem = m.mem)
    ∧ ((exec (emitted a (a.emit_i32_mul dst lhs rhs)) m).1.regs r = m.regs r
      ∧ (exec (emitted a (a.emit_i32_mul dst lhs rhs)) m).1.mem = m.mem)
    ∧ ((exec (emitted a (a.emit_i32_and dst lhs rhs)) m).1.regs r = m.regs r
      ∧ (exec (emitted a (a.emit_i32_and dst lhs rhs)) m).1.mem = m.mem)
    ∧ ((exec (emitted a (a.emit_i32_or dst lhs rhs)) m).1.regs r = m.regs r
      ∧ (exec (emitted a (a.emit_i32_or dst lhs rhs)) m).1.mem = m.mem)
    ∧ ((exec (emitted a (a.emit_i32_xor dst lhs rhs)) m).1.regs r = m.regs r
      ∧ (exec (emitted a (a.emit_i32_xor dst lhs rhs)) m).1.mem = m.mem) := by
  refine ⟨?_, ?_, ?_, ?_, ?_, ?_⟩
  · unfold LiftoffAssembler.emit_i32_add
    by_cases h : lhs = dst <;>
      simp [h, emitted_emit, exec, Instr.branch, Instr.step, Machine.setReg, Machine.setZF, hr]
  · unfold LiftoffAssembler.emit_i32_sub
    by_cases h1 : dst = rhs
    · simp [h1, emitted_emit_emit, exec, Instr.branch, Instr.step, Machine.setReg,
        Machine.setZF, h1 ▸ hr]
    · by_cases h2 : dst = lhs
      · subst h2
        simp [h1, emitted_emit, exec, Instr.branch, Instr.step, Machine.setReg,
          Machine.setZF, hr]
      · simp [h1, h2, emitted_emit_emit, exec, Instr.branch, Instr.step, Machine.setReg,
          Machine.setZF, hr]
  · exact COMMUTATIVE_I32_BINOP_frame Instr.imul (fun _ _ _ => rfl)
      (fun d s m r hr => by simp [Instr.step, Machine.setReg, hr])
      (fun d s m => by simp [Instr.step, Machine.setReg]) a m dst lhs rhs r hr
  · exact COMMUTATIVE_I32_BINOP_frame Instr.and_ (fun _ _ _ => rfl)
      (fun d s m r hr => by simp [Instr.step, Machine.setReg, Machine.setZF, hr])
      (fun d s m => by simp [Instr.step, Machine.setReg, Machine.setZF]) a m dst lhs rhs r hr
  · exact COMMUTATIVE_I32_BINOP_frame Instr.or_ (fun _ _ _ => rfl)
      (fun d s m r hr => by simp [Instr.step, Machine.setReg, Machine.setZF, hr])
      (fun d s m => by simp [Instr.step, Machine.setReg, Machine.setZF]) a m dst lhs rhs r hr
  · exact COMMUTATIVE_I32_BINOP_frame Instr.xor_ (fun _ _ _ => rfl)
      (fun d s m r hr => by simp [Instr.step, Machine.setReg, Machine.setZF, hr])
      (fun d s m => by simp [Instr.step, Machine.setReg, Machine.setZF]) a m dst lhs rhs r hr

/-- C18 (witness): with dst = eax, lhs = ecx, rhs = edx, ecx keeps its value 6
through the subtraction and the multiplication. -/
theorem emit_i32_binop_frame_witness :
    (exec (emitted (LiftoffAssembler.start [])
        ((LiftoffAssembler.start []).emit_i32_sub .eax .ecx .edx))
        (Machine.init (fun r => if r = .ecx then 6 else 3) (fun _ => 0))).1.regs .ecx = 6
    ∧ (exec (emitted (LiftoffAssembler.start [])
        ((LiftoffAssembler.start []).emit_i32_mul .eax .ecx .edx))
        (Machine.init (fun r => if r = .ecx then 6 else 3) (fun _ => 0))).1.regs .ecx = 6 := by
  have h := emit_i32_binop_frame (LiftoffAssembler.start [])
    (Machine.init (fun r => if r = .ecx then 6 else 3) (fun _ => 0)) .eax .ecx .edx .ecx
    (by decide)
  exact ⟨h.2.1.1, h.2.2.1.1⟩

/-! ## Spill: what it writes -/

theorem ea_stack_marker (m : Machine) :
    m.ea (Operand.base_disp .ebp (-8)) = (m.regs .ebp + 4294967288) % 4294967296 := by
  have h1 : to_uint32 (-8) = 4294967288 := by decide
  simp only [Machine.ea, Operand.base_disp, h1]

/-- The frame after a machine has written a word to slot `i` and nothing else. -/
theorem frame_after_slot_store (m m1 : Machine) (i val : Nat) (hi : i < 268435456)
    (hregs : m1.regs = m.regs)
    (hmem : m1.mem = store32 m.mem (m.ea (liftoff.GetStackSlot i)) val) :
    m.ea (liftoff.GetStackSlot i) = (m.regs .ebp + (4294967272 - 8 * i)) % 4294967296
    ∧ (∀ x, (∀ k, k < 4 → x ≠ (m.regs .ebp + (4294967272 - 8 * i) + k) % 4294967296) →
        m1.mem x = m.mem x)
    ∧ (∀ j, j < 268435456 → j ≠ i → slotWord m1 j = slotWord m j)
    ∧ contextWord m1 = contextWord m
    ∧ stackMarkerWord m1 = stackMarkerWord m := by
  have hb : m1.regs .ebp = m.regs .ebp := by rw [hregs]
  have hea : m.ea (liftoff.GetStackSlot i)
      = (m.regs .ebp + (4294967272 - 8 * i)) % 4294967296 := by
    rw [ea_GetStackSlot]; omega
  refine ⟨hea, ?_, ?_, ?_, ?_⟩
  · intro x hx
    have h0 := hx 0 (by omega)
    have h1 := hx 1 (by omega)
    have h2 := hx 2 (by omega)
    have h3 := hx 3 (by omega)
    rw [hmem, hea]
    have g0 : ¬ x = (m.regs .ebp + (4294967272 - 8 * i)) % 4294967296 % 4294967296 := by omega
    have g1 : ¬ x = ((m.regs .ebp + (4294967272 - 8 * i)) % 4294967296 + 1) % 4294967296 := by
      omega
    have g2 : ¬ x = ((m.regs .ebp + (4294967272 - 8 * i)) % 4294967296 + 2) % 4294967296 := by
      omega
    have g3 : ¬ x = ((m.regs .ebp + (4294967272 - 8 * i)) % 4294967296 + 3) % 4294967296 := by
      omega
    simp only [store32, g0, g1, g2, g3, if_false]
  · intro j hj hne
    rw [slotWord, hmem, ea_GetStackSlot_congr m m1 j hb,
      load32_store32_disjoint _ _ _ _
        (slots_disjoint m m i j (by omega) (by omega) hne rfl)]
    rfl
  · rw [contextWord, hmem, ea_GetContextOperand_congr m m1 hb,
      load32_store32_disjoint _ _ _ _ (slot_context_disjoint m m i (by omega) rfl)]
    rfl
  · have hd : disjoint32 (m.ea (liftoff.GetStackSlot i)) (m.ea (Operand.base_disp .ebp (-8))) := by
      intro x y hx hy
      rw [hea, ea_stack_marker]
      omega
    rw [stackMarkerWord, hmem, ea_base_ebp_congr m m1 _ hb, load32_store32_disjoint _ _ _ _ hd]
    rfl

/-- C19: for slot indices i, j < 2^28 with i different from j, the code emitted by
Spill(i, r) and by Spill(i, constant), one mov to the slot operand, writes only
the four bytes at ebp - 24 - 8 * i: every other byte of memory, hence the word
of slot j, the context word at ebp - 16 and the stack-marker word at ebp - 8,
is unchanged, and no register is modified.  Spill(i, constant) emits code only
for an i32 constant. -/
theorem Spill_writes_only_slot (a : LiftoffAssembler) (m : Machine) (i j : Nat) (r : Register)
    (v : Int) (hij : i ≠ j) (hi : i < 268435456) (hj : j < 268435456) :
    (∃ a1, a.Spill i (.of_gp r) = .ok a1
      ∧ emitted a a1 = [Instr.mov_mr (liftoff.GetStackSlot i) r]
      ∧ (∀ x, (∀ k, k < 4 → x ≠ (m.regs .ebp + (4294967272 - 8 * i) + k) % 4294967296) →
          (exec (emitted a a1) m).1.mem x = m.mem x)
      ∧ slotWord (exec (emitted a a1) m).1 j = slotWord m j
      ∧ contextWord (exec (emitted a a1) m).1 = contextWord m
      ∧ stackMarkerWord (exec (emitted a a1) m).1 = stackMarkerWord m
      ∧ (exec (emitted a a1) m).1.regs = m.regs
      ∧ (exec (emitted a a1) m).1.xmm = m.xmm)
    ∧ (∃ a1, a.SpillValue i (.i32 v) = .ok a1
      ∧ emitted a a1 = [Instr.mov_mi (liftoff.GetStackSlot i) v]
      ∧ (∀ x, (∀ k, k < 4 → x ≠ (m.regs .ebp + (4294967272 - 8 * i) + k) % 4294967296) →
          (exec (emitted a a1) m).1.mem x = m.mem x)
      ∧ slotWord (exec (emitted a a1) m).1 j = slotWord m j
      ∧ contextWord (exec (emitted a a1) m).1 = contextWord m
      ∧ stackMarkerWord (exec (emitted a a1) m).1 = stackMarkerWord m
      ∧ (exec (emitted a a1) m).1.regs = m.regs
      ∧ (exec (emitted a a1) m).1.xmm = m.xmm)
    ∧ (∀ value a1, a.SpillValue i value = .ok a1 → ∃ w, value = .i32 w) := by
  refine ⟨?_, ?_, ?_⟩
  · refine ⟨a.emit (.mov_mr (liftoff.GetStackSlot i) r), rfl, emitted_emit _ _, ?_⟩
    rw [emitted_emit]
    obtain ⟨_, f1, f2, f3, f4⟩ := frame_after_slot_store m
      (exec [Instr.mov_mr (liftoff.GetStackSlot i) r] m).1 i (m.regs r) hi rfl rfl
    exact ⟨f1, f2 j hj (Ne.symm hij), f3, f4, rfl, rfl⟩
  · refine ⟨a.emit (.mov_mi (liftoff.GetStackSlot i) v), rfl, emitted_emit _ _, ?_⟩
    rw [emitted_emit]
    obtain ⟨_, f1, f2, f3, f4⟩ := frame_after_slot_store m
      (exec [Instr.mov_mi (liftoff.GetStackSlot i) v] m).1 i (to_uint32 v) hi rfl rfl
    exact ⟨f1, f2 j hj (Ne.symm hij), f3, f4, rfl, rfl⟩
  · intro value a1 h
    cases value with
    | i32 w => exact ⟨w, rfl⟩
    | i64 w => simp [LiftoffAssembler.SpillValue, WasmValue.to_i32, bind, Except.bind] at h
    | f32 w => simp [LiftoffAssembler.SpillValue, WasmValue.to_i32, bind, Except.bind] at h
    | f64 w => simp [LiftoffAssembler.SpillValue, WasmValue.to_i32, bind, Except.bind] at h

/-- C19 (witness): Spill(1, ecx) on a machine with ebp = 4096: slot 0 (address
4072) keeps its word 7. -/
theorem Spill_writes_only_slot_witness :
    ∃ a1, (LiftoffAssembler.start []).Spill 1 (.of_gp .ecx) = .ok a1
      ∧ slotWord (exec (emitted (LiftoffAssembler.start []) a1)
          (Machine.init (fun r => if r = .ebp then 4096 else 99)
            (fun x => if x = 4072 then 7 else 0))).1 0 = 7
      ∧ slotWord (exec (emitted (LiftoffAssembler.start []) a1)
          (Machine.init (fun r => if r = .ebp then 4096 else 99)
            (fun x => if x = 4072 then 7 else 0))).1 1 = 99 := by
  obtain ⟨⟨a1, h1, h2, _, h4, _⟩, _, _⟩ := Spill_writes_only_slot (LiftoffAssembler.start [])
    (Machine.init (fun r => if r = .ebp then 4096 else 99) (fun x => if x = 4072 then 7 else 0))
    1 0 .ecx 0 (by decide) (by decide) (by decide)
  refine ⟨a1, h1, ?_, ?_⟩
  · rw [h4]; decide
  · rw [h2]; decide

/-! ## Load and Store: when the scratch register is requested -/

theorem GetUnusedRegister_error (a : LiftoffAssembler) (rc : RegClass)
    (pinned : List LiftoffRegister) (e : Fatal) (h : a.GetUnusedRegister rc pinned = .error e) :
    e = .no_unused_register := by
  unfold LiftoffAssembler.GetUnusedRegister at h
  cases hl : a.cache_state_.unused_registers rc pinned with
  | nil => simp [hl] at h; exact h.symm
  | cons y ys => simp [hl] at h

theorem Load_no_register_iff (a : LiftoffAssembler) (dst : LiftoffRegister) (base : Register)
    (offset_imm : Nat) (size : Int) (pinned : List LiftoffRegister) :
    a.Load dst base offset_imm size pinned = .error .no_unused_register
      ↔ (offset_imm > kMaxInt
          ∧ a.GetUnusedRegister .kGpReg pinned = .error .no_unused_register) := by
  by_cases h : offset_imm > kMaxInt
  · cases hg : a.GetUnusedRegister .kGpReg pinned with
    | error e =>
      have he := GetUnusedRegister_error a _ _ e hg
      subst he
      simp [LiftoffAssembler.Load, h, hg, bind, Except.bind]
    | ok x =>
      obtain ⟨r, hx, _, _⟩ := GetUnusedRegister_gp_ok a pinned x hg
      subst hx
      by_cases hs : (4 : Int) = size
      · cases dst <;>
          simp [LiftoffAssembler.Load, h, hg, hs, DCHECK, LiftoffRegister.gp, bind,
            Except.bind, pure, Except.pure]
      · simp [LiftoffAssembler.Load, h, hg, hs, DCHECK, LiftoffRegister.gp, bind,
          Except.bind, pure, Except.pure]
  · by_cases hs : (4 : Int) = size
    · cases dst <;>
        simp [LiftoffAssembler.Load, h, hs, DCHECK, LiftoffRegister.gp, bind,
          Except.bind, pure, Except.pure]
    · simp [LiftoffAssembler.Load, h, hs, DCHECK, bind, Except.bind, pure, Except.pure]

theorem Store_no_register_iff (a : LiftoffAssembler) (base : Register) (offset_imm : Nat)
    (src : LiftoffRegister) (size : Int) (pinned : List LiftoffRegister) :
    a.Store base offset_imm src size pinned = .error .no_unused_register
      ↔ (offset_imm > kMaxInt
          ∧ a.GetUnusedRegister .kGpReg pinned = .error .no_unused_register) := by
  by_cases h : offset_imm > kMaxInt
  · cases hg : a.GetUnusedRegister .kGpReg pinned with
    | error e =>
      have he := GetUnusedRegister_error a _ _ e hg
      subst he
      simp [LiftoffAssembler.Store, h, hg, bind, Except.bind]
    | ok x =>
      obtain ⟨r, hx, _, _⟩ := GetUnusedRegister_gp_ok a pinned x hg
      subst hx
      by_cases hs : (4 : Int) = size
      · cases src <;>
          simp [LiftoffAssembler.Store, h, hg, hs, DCHECK, LiftoffRegister.gp, bind,
            Except.bind, pure, Except.pure]
      · simp [LiftoffAssembler.Store, h, hg, hs, DCHECK, LiftoffRegister.gp, bind,
          Except.bind, pure, Except.pure]
  · by_cases hs : (4 : Int) = size
    · cases src <;>
        simp [LiftoffAssembler.Store, h, hs, DCHECK, LiftoffRegister.gp, bind,
          Except.bind, pure, Except.pure]
    · simp [LiftoffAssembler.Store, h, hs, DCHECK, bind, Except.bind, pure, Except.pure]

/-- C20: Load and Store depend on GetUnusedRegister exactly when offset_imm >
kMaxInt.  They end in the register-allocation failure if and only if
offset_imm > kMaxInt and GetUnusedRegister fails.  For offset_imm <= kMaxInt and
size 4 they succeed whatever the cache state and the pinned set are, emitting
exactly one mov through [base + offset_imm], which modifies no register but
the destination of Load; for offset_imm > kMaxInt they emit a mov into the
register GetUnusedRegister returns before the memory access. -/
theorem Load_Store_scratch_iff (a : LiftoffAssembler) (m : Machine)
    (dst src base : Register) (offset_imm : Nat) (pinned : List LiftoffRegister) :
    (a.Load (.of_gp dst) base offset_imm 4 pinned = .error .no_unused_register
      ↔ (offset_imm > kMaxInt
          ∧ a.GetUnusedRegister .kGpReg pinned = .error .no_unused_register))
    ∧ (a.Store base offset_imm (.of_gp src) 4 pinned = .error .no_unused_register
      ↔ (offset_imm > kMaxInt
          ∧ a.GetUnusedRegister .kGpReg pinned = .error .no_unused_register))
    ∧ (offset_imm ≤ kMaxInt →
        a.Load (.of_gp dst) base offset_imm 4 pinned
          = .ok (a.emit (.mov_rm dst (Operand.base_disp base (to_int32 offset_imm))))
        ∧ a.Store base offset_imm (.of_gp src) 4 pinned
          = .ok (a.emit (.mov_mr (Operand.base_disp base (to_int32 offset_imm)) src))
        ∧ (∀ r, r ≠ dst →
            (exec [Instr.mov_rm dst (Operand.base_disp base (to_int32 offset_imm))] m).1.regs r
              = m.regs r)
        ∧ (exec [Instr.mov_mr (Operand.base_disp base (to_int32 offset_imm)) src] m).1.regs
            = m.regs)
    ∧ (offset_imm > kMaxInt → ∀ scratch,
        a.GetUnusedRegister .kGpReg pinned = .ok (.of_gp scratch) →
        a.Load (.of_gp dst) base offset_imm 4 pinned
          = .ok ((a.emit (.mov_ri scratch (to_int32 offset_imm))).emit
              (.mov_rm dst (Operand.indexed base scratch .times_1 0)))
        ∧ a.Store base offset_imm (.of_gp src) 4 pinned
          = .ok ((a.emit (.mov_ri scratch (to_int32 offset_imm))).emit
              (.mov_mr (Operand.indexed base scratch .times_1 0) src))) := by
  refine ⟨Load_no_register_iff a _ base offset_imm 4 pinned,
    Store_no_register_iff a base offset_imm _ 4 pinned, ?_, ?_⟩
  · intro h
    have h2 : ¬ offset_imm > kMaxInt := by omega
    refine ⟨Load_small a dst base offset_imm pinned h2,
      Store_small a src base offset_imm pinned h2, ?_, ?_⟩
    · intro r hr
      simp [exec, Instr.branch, Instr.step, Machine.setReg, hr]
    · simp [exec, Instr.branch, Instr.step]
  · intro h scratch hs
    exact ⟨Load_large a dst base scratch offset_imm pinned h hs,
      Store_large a src base scratch offset_imm pinned h hs⟩

/-- C20 (witness): with every cache register in use, offset 12 still loads and
stores with a single mov, while offset 4294967288 ends in the allocation
failure. -/
theorem Load_Store_scratch_iff_witness :
    (LiftoffAssembler.start [.of_gp .eax, .of_gp .ecx, .of_gp .edx, .of_gp .ebx,
        .of_gp .esi, .of_gp .edi]).Load (.of_gp .eax) .ebx 12 4 []
      = .ok ((LiftoffAssembler.start [.of_gp .eax, .of_gp .ecx, .of_gp .edx, .of_gp .ebx,
          .of_gp .esi, .of_gp .edi]).emit (.mov_rm .eax (Operand.base_disp .ebx 12)))
    ∧ (LiftoffAssembler.start [.of_gp .eax, .of_gp .ecx, .of_gp .edx, .of_gp .ebx,
        .of_gp .esi, .of_gp .edi]).Load (.of_gp .eax) .ebx 4294967288 4 []
      = .error .no_unused_register := by
  refine ⟨?_, ?_⟩
  · exact ((Load_Store_scratch_iff (LiftoffAssembler.start [.of_gp .eax, .of_gp .ecx,
      .of_gp .edx, .of_gp .ebx, .of_gp .esi, .of_gp .edi]) (Machine.init (fun _ => 0) (fun _ => 0))
      .eax .ecx .ebx 12 []).2.2.1 (by decide)).1
  · exact (Load_Store_scratch_iff (LiftoffAssembler.start [.of_gp .eax, .of_gp .ecx,
      .of_gp .edx, .of_gp .ebx, .of_gp .esi, .of_gp .edi]) (Machine.init (fun _ => 0) (fun _ => 0))
      .eax .ecx .ebx 4294967288 []).1.2 ⟨by decide, rfl⟩

end Liftoff
